import Mathlib

/-!
Verification of the frontier-driven crawl core of `recipes_demo`
(`src/base_crawler.py`, `src/epicurious.py`).

The Python code is shallowly embedded: strings stay strings, the Redis
sets backing the frontier become lists with set-shaped operations, the
two `re` patterns of `url_parts` and `url_from_href` are embedded as
specialised leftmost-search backtracking matchers, and the two crawl
loops become fuel-bounded recursions driven by an oracle that supplies
the transport outcome of each fetch.  Exceptions become `Except` values
carrying the state at the moment of the raise.
-/

namespace Crawler

/-- Python `needle in hay` for strings: substring containment. -/
def pyIn (needle hay : String) : Bool :=
  decide (needle.toList <:+: hay.toList)

/-- Python `s.startswith(pre)`. -/
def pyStartswith (s pre : String) : Bool :=
  pre.toList.isPrefixOf s.toList

/-- Python `s.lstrip(chars)`: remove all leading characters drawn from the
character set `chars` (note: a set of characters, not a prefix). -/
def pyLstrip (chars : List Char) (s : String) : String :=
  (s.toList.dropWhile (fun c => chars.contains c)).asString

/-- Python `s.rstrip(chars)`: remove all trailing characters drawn from the
character set `chars`. -/
def pyRstrip (chars : List Char) (s : String) : String :=
  ((s.toList.reverse.dropWhile (fun c => chars.contains c)).reverse).asString

/-- Python `str.lower()` (ASCII case folding suffices for the crawler). -/
def pyLower (s : String) : String :=
  (s.toList.map Char.toLower).asString

/-- Python `str(x)` on an optional string: `None` renders as `"None"`. -/
def pyStr : Option String → String
  | some s => s
  | none => "None"

/-- Python truthiness of an optional string: `None` and `""` are falsy. -/
def pyTruthy : Option String → Bool
  | some s => s != ""
  | none => false

/-!
The `url_parts` regex, from `base_crawler.py`:

    (?:(?P<scheme>https?)://)?
    (?P<host>(?:www\.)?[^/]+\.[^/]+)
    (?P<path>/.+)

searched with `re.search` and flags `re.I | re.X`.  The embedding is a
specialised matcher with Python's leftmost-search, greedy-with-backtracking
semantics.  At a fixed start position the host part `(?:www\.)?[^/]+\.[^/]+`
followed by `/` matches exactly the maximal slash-free run when that run has
an interior dot (a dot that leaves a nonempty `[^/]+` on each side) and is
terminated by a `/`; the optional `www.` branch never changes the captured
host or path, so it is elided.  The path `/.+` is the terminating slash plus
the maximal nonempty newline-free run.
-/

/-- One anchored attempt of the host-and-path part of the `url_parts` regex
at the current position; returns the host and path captures. -/
def hostPath (cs : List Char) : Option (String × String) :=
  let run := cs.takeWhile (fun c => c != '/')
  match cs.dropWhile (fun c => c != '/') with
  | [] => none
  | _ :: tl =>
    let pathTail := tl.takeWhile (fun c => c != '\n')
    if ((run.drop 1).dropLast).contains '.' && !pathTail.isEmpty then
      some (run.asString, ('/' :: pathTail).asString)
    else none

/-- The optional scheme part `(?:(?P<scheme>https?)://)?` at the current
position: greedy, trying `https://` and then `http://` case-insensitively;
the scheme capture is the original (not case-folded) text. -/
def schemeAt (cs : List Char) : Option (String × List Char) :=
  if ((cs.take 8).map Char.toLower) == "https://".toList then
    some ((cs.take 5).asString, cs.drop 8)
  else if ((cs.take 7).map Char.toLower) == "http://".toList then
    some ((cs.take 4).asString, cs.drop 7)
  else none

/-- One anchored attempt of the whole `url_parts` regex: the scheme branch is
tried first (the optional group is greedy); if the remainder fails, the
scheme-less branch is tried at the same position. -/
def tryAt (cs : List Char) : Option (Option String × String × String) :=
  match schemeAt cs with
  | some (sch, rest) =>
    match hostPath rest with
    | some (h, p) => some (some sch, h, p)
    | none => (hostPath cs).map (fun r => (none, r.1, r.2))
  | none => (hostPath cs).map (fun r => (none, r.1, r.2))

/-- Python `re.search`: try every start position from the left, returning the
first successful anchored attempt. -/
def searchFrom : List Char → Option (Option String × String × String)
  | [] => none
  | c :: tl =>
    match tryAt (c :: tl) with
    | some r => some r
    | none => searchFrom tl

/-- `BaseCrawler.url_parts`: scheme, domain and full path of a url.  When the
regex finds no match the whole input, `/`-prefixed if needed, is the path. -/
def url_parts (url : String) : Option String × Option String × String :=
  match searchFrom url.toList with
  | some (sch, host, path) => (sch, some host, path)
  | none => (none, none, if pyStartswith url "/" then url else "/" ++ url)

/-!
The protocol-relative href regex of `url_from_href`:

    //(?P<domain>[^/]{3,})(?P<path>/.*)

again with `re.search` and `re.I | re.X`.  At a start position it needs two
slashes, then the maximal slash-free run (which must have length at least 3)
terminated by a `/`; the path is that slash plus the maximal (possibly empty)
newline-free run.
-/

/-- One anchored attempt of the protocol-relative href regex. -/
def protoRelAt : List Char → Option (String × String)
  | '/' :: '/' :: rest =>
    let run := rest.takeWhile (fun c => c != '/')
    match rest.dropWhile (fun c => c != '/') with
    | [] => none
    | _ :: tl =>
      if run.length ≥ 3 then
        some (run.asString, ('/' :: tl.takeWhile (fun c => c != '\n')).asString)
      else none
  | _ => none

/-- Leftmost search of the protocol-relative href regex. -/
def protoRelSearch : List Char → Option (String × String)
  | [] => none
  | c :: tl =>
    match protoRelAt (c :: tl) with
    | some r => some r
    | none => protoRelSearch tl

/-- `BaseCrawler.url_from_href`: resolve the href of a link element into an
optional domain and a path.  The `//` branch raises `Scary path` when its
regex finds no match; that exception is modelled as `Except.error`. -/
def url_from_href (href : String) : Except String (Option String × String) :=
  if pyStartswith href "//" then
    match protoRelSearch href.toList with
    | some (d, p) => .ok (some d, p)
    | none => .error ("Scary path: " ++ href)
  else if pyStartswith href "/../" then
    .ok (none, href.drop 3)
  else if pyStartswith href "/" then
    .ok (none, href)
  else
    let r := url_parts href
    .ok (r.2.1, r.2.2)

example : url_parts "https://website.com/home" =
    (some "https", some "website.com", "/home") := by decide
example : url_parts "https://example.com" = (none, none, "/https://example.com") := by decide
example : url_parts "page.html" = (none, none, "/page.html") := by decide
example : url_parts "HTTP://A.B/c" = (some "HTTP", some "A.B", "/c") := by decide
example : url_parts "http://x/y.z/w" = (none, some "y.z", "/w") := by decide
example : url_parts "" = (none, none, "/") := by decide
example : url_parts "a.b://c.d" = (none, some "a.b:", "//c.d") := by decide
example : url_parts "ab https://x.com/y" = (some "https", some "x.com", "/y") := by decide
example : url_parts "www.com/x" = (none, some "www.com", "/x") := by decide
example : url_parts "x.y/" = (none, none, "/x.y/") := by decide
example : url_parts "a.b/c\nd" = (none, some "a.b", "/c") := by decide
example : url_parts "a./b" = (none, none, "/a./b") := by decide
example : url_parts ".a.b/c" = (none, some ".a.b", "/c") := by decide
example : url_parts "httpst://a.b/c" = (none, some "a.b", "/c") := by decide
example : url_parts "xy/z a.b/c" = (none, some "z a.b", "/c") := by decide
example : url_parts "http://a.b/\nc" = (none, none, "/http://a.b/\nc") := by decide
example : protoRelSearch "//ab/cd/e".toList = none := by decide
example : protoRelSearch "//x//abc/d".toList = some ("abc", "/d") := by decide
example : protoRelSearch "//abc/d\ne".toList = some ("abc", "/d") := by decide
example : url_from_href "//cdn.com/x" = .ok (some "cdn.com", "/x") := rfl
example : url_from_href "//ab" = .error "Scary path: //ab" := rfl
example : url_from_href "/../x" = .ok (none, "/x") := rfl
example : url_from_href "/plain" = .ok (none, "/plain") := rfl
example : url_from_href "///abc/" = .ok (some "abc", "/") := rfl

/-!
The frontier store.  Redis sets keyed `domain:in_progress`, `domain:finished`
and `domain:errored` become three duplicate-free lists of paths; the
depth-sample list `domain:count` becomes a list of numbers.  Each primitive
set operation is atomic in Redis, so one list update per operation is the
faithful granularity.
-/

/-- Redis `SADD` (one member): a no-op when the member is present. -/
def sadd (s : List String) (p : String) : List String :=
  if p ∈ s then s else s ++ [p]

/-- Redis `SREM` (one member). -/
def srem (s : List String) (p : String) : List String :=
  s.filter (fun q => q != p)

/-- Redis `SISMEMBER`. -/
def sismember (s : List String) (p : String) : Bool :=
  s.contains p

/-- Redis `SCARD`. -/
def scard (s : List String) : Nat :=
  s.length

/-- One record of `crawler_errors.jsonl`, as written by
`BaseCrawler.log_crawler_error`: the `note` key is present in the JSON object
exactly when the recorded `note` is `some`. -/
structure ErrorRecord where
  path : String
  errorType : String
  errorMessage : String
  note : Option String
deriving Repr, DecidableEq

/-- `BaseCrawler.log_crawler_error`: append one record; the optional note is
included only when truthy (Python `if note:`). -/
def log_crawler_error (log : List ErrorRecord) (path errType errMsg : String)
    (note : Option String) : List ErrorRecord :=
  log ++ [{ path := path, errorType := errType, errorMessage := errMsg,
            note := if pyTruthy note then note else none }]

/-- Immutable per-job data of `BaseCrawler.__init__`/`prepare_url`. -/
structure Config where
  scheme : Option String
  domain : String
  baseUrl : String
  path : String
  allow : List String
  avoid : List String
  findMoreLinks : Bool
  limit : Nat
deriving Repr, DecidableEq

/-- Mutable world of one crawl: the three frontier sets and the depth-sample
list live in the store; the error log, console, saved files, fetched urls and
the page counter are the other observable effects. -/
structure CrawlState where
  inProgress : List String
  finished : List String
  errored : List String
  depthSamples : List Nat
  errorLog : List ErrorRecord
  console : List String
  savedPages : List String
  savedImages : List String
  fetchLog : List String
  pageCount : Nat
deriving Repr, DecidableEq

/-- Character set of Python `lstrip('www.')`: the characters `w` and `.`. -/
def wwwChars : List Char := ['w', '.']

/-- Character set of Python `strip('/')`. -/
def slashChars : List Char := ['/']

/-- The domain normalisation used by `same_domains`:
`d.lstrip('www.').rstrip('/')` — a character-set strip on both ends. -/
def stripDom (d : String) : String :=
  pyRstrip slashChars (pyLstrip wwwChars d)

/-- `BaseCrawler.same_domains`: `not domain or (strip(self.domain) ==
strip(domain))`. -/
def same_domains (cfg : Config) (domain : Option String) : Bool :=
  if pyTruthy domain then stripDom cfg.domain == stripDom (pyStr domain)
  else true

/-- `BaseCrawler.messy_path`: `'http' in link_path`. -/
def messy_path (linkPath : String) : Bool :=
  pyIn "http" linkPath

/-- `BaseCrawler.avoid_link`: any `avoid` substring occurs in the path. -/
def avoid_link (cfg : Config) (linkPath : String) : Bool :=
  cfg.avoid.any (fun s => pyIn s linkPath)

/-- `BaseCrawler.skip_link`: drop a resolved candidate when the path is
falsy, longer than 120 characters, off-domain, already finished or errored,
avoided, or contains `http`. -/
def skip_link (cfg : Config) (st : CrawlState)
    (linkDomain : Option String) (linkPath : String) : Bool :=
  (linkPath == "") ||
  decide (linkPath.length > 120) ||
  !(same_domains cfg linkDomain) ||
  sismember st.finished linkPath ||
  sismember st.errored linkPath ||
  avoid_link cfg linkPath ||
  messy_path linkPath

/-!
The document contract.  Parsed pages are an external collaborator (the
BeautifulSoup library); a page is modelled as the data the crawler queries
from it: its anchor elements (href attribute, element text, serialised
form), the Epicurious end-of-results marker, and the pieces the Epicurious
page/image persistence reads.  Per the library's documented matching rules,
`find_all('a', href=True, ...)` selects anchors that define the attribute,
and an attribute filter function receives `None` (rendered `"None"` by
`str`) when the attribute is absent.  `imgFileExists` and `imgFetch` carry
the filesystem/transport environment of the image download for this page.
-/

/-- One anchor element of a fetched document. -/
structure Anchor where
  href : Option String
  text : String
  serialized : String
deriving Repr, DecidableEq

/-- A fetched document, exposed through the document contract. -/
structure Document where
  anchors : List Anchor
  endMarker : Bool
  mainContentPresent : Bool
  recipeImgSrcset : Option (Option String)
  imgFileExists : Bool
  imgFetch : Except (String × String) Unit
deriving Repr

/-- `BaseCrawler.page_links`: with a nonempty `allow` list, one `find_all`
pass per allow substring, each selecting the anchors whose href (as rendered
by `str`, so `"None"` for an absent href) contains the substring; otherwise
the anchors defining a href and having nonempty text. -/
def page_links (cfg : Config) (doc : Document) : List Anchor :=
  if cfg.allow.isEmpty then
    doc.anchors.filter (fun a => a.href.isSome && a.text != "")
  else
    (cfg.allow.map (fun s => doc.anchors.filter (fun a => pyIn s (pyStr a.href)))).flatten

/-- The hidden-element filter of `add_links`: skip when the serialisation
contains `hidden` (case-insensitively) but not `overflow-hidden`. -/
def hiddenSkip (a : Anchor) : Bool :=
  pyIn "hidden" (pyLower a.serialized) && !(pyIn "overflow-hidden" (pyLower a.serialized))

/-- Body of the `add_links` loop over the candidate anchors.  A `Scary path`
exception from `url_from_href` propagates (nothing in `add_links` or the
crawl loop catches it), carrying the state at the raise. -/
def add_links_go (cfg : Config) : List Anchor → CrawlState →
    Except (String × CrawlState) CrawlState
  | [], st => .ok st
  | a :: rest, st =>
    if hiddenSkip a then add_links_go cfg rest st
    else if !(pyTruthy a.href) then add_links_go cfg rest st
    else
      match url_from_href (pyStr a.href) with
      | .error e => .error (e, st)
      | .ok (linkDomain, linkPath) =>
        if skip_link cfg st linkDomain linkPath then add_links_go cfg rest st
        else add_links_go cfg rest
          { st with inProgress := sadd st.inProgress linkPath }

/-- `BaseCrawler.add_links`: filter the candidate anchors and add each
surviving path to `in_progress`. -/
def add_links (cfg : Config) (st : CrawlState) (doc : Document) :
    Except (String × CrawlState) CrawlState :=
  add_links_go cfg (page_links cfg doc) st

/-- `BaseCrawler.handle_redirection`: extract the path of the transport's
final url; raise `Missing redirected URL` when it is falsy; otherwise remove
the old path from `in_progress`, add it to `finished`, add the new path to
`in_progress`, and return the new path. -/
def handle_redirection (st : CrawlState) (oldPath finalUrl : String) :
    Except String (CrawlState × String) :=
  let newPath := (url_parts finalUrl).2.2
  if newPath == "" then .error "Missing redirected URL"
  else
    .ok ({ st with inProgress := sadd (srem st.inProgress oldPath) newPath,
                   finished := sadd st.finished oldPath },
         newPath)

/-- `BaseCrawler.complete_page`: bump the page counter, add the path to
`finished`, remove it from `in_progress`. -/
def complete_page (st : CrawlState) (nextPath : String) : CrawlState :=
  { st with pageCount := st.pageCount + 1,
            finished := sadd st.finished nextPath,
            inProgress := srem st.inProgress nextPath }

/-- File-name flattening of `download_page`: strip leading slashes, replace
each `/` with `_-_`. -/
def flatten_path (p : String) : String :=
  String.join ((pyLstrip slashChars p).toList.map
    (fun c => if c = '/' then "_-_" else String.singleton c))

/-- `BaseCrawler.download_page`: write the page body under the flattened
path name. -/
def download_page (st : CrawlState) (path : String) : CrawlState :=
  { st with savedPages := st.savedPages ++ [flatten_path path ++ ".html"] }

example : flatten_path "/a/b" = "a_-_b" := by decide
example : stripDom "wwwwexample.com" = "example.com" := by decide
example : stripDom "web.example.com" = "eb.example.com" := by decide

/-!
The transport contract and the two crawl loops.  `get_response` uses
`Retry(3, redirect=1, ...)`, so `response.retries.redirect` is the number of
redirects still allowed: it starts at 1 and reaches 0 exactly when one
redirect was followed.  An oracle supplies the outcome of each fetch; the
loops are fuel-bounded recursions (running out of fuel returns the state
reached so far).  `srandmember` returns an arbitrary member of
`in_progress`: the oracle proposes a pick, and a proposal that is not a
member falls back to the first member, so the picked path is always a
member of the set.
-/

/-- Outcome of one `get_response` call: an exception, or a response with its
status, its remaining-redirect counter `retries.redirect`, its final url
(`geturl()`) and its parsed body. -/
inductive FetchOutcome where
  | failure (errType errMsg : String)
  | success (status : Nat) (retriesRedirect : Nat) (finalUrl : String) (doc : Document)
deriving Repr

/-- Oracle data for one iteration of the BFS loop: the `srandmember` pick
and the fetch outcome. -/
structure IterInput where
  pick : String
  outcome : FetchOutcome
deriving Repr

/-- The shared failure bookkeeping of both loops' `except` branches: log the
error, print it, add the path to `errored`, remove it from `in_progress`. -/
def fail_update (st : CrawlState) (nextPath currentUrl errType errMsg : String) :
    CrawlState :=
  { st with errorLog := log_crawler_error st.errorLog nextPath errType errMsg none,
            console := st.console ++
              ["\n" ++ errType ++ ": " ++ errMsg ++ ": " ++ currentUrl ++ "\n"],
            errored := sadd st.errored nextPath,
            inProgress := srem st.inProgress nextPath }

/-- Body of one iteration of `BaseCrawler.crawl_domain`'s while loop, after
the path has been picked: fetch, classify, persist, account.  Returns the
new state and whether the loop breaks; a `Scary path` exception from link
discovery propagates. -/
def crawl_iter_core (cfg : Config) (outcome : FetchOutcome) (st : CrawlState)
    (nextPath : String) : Except (String × CrawlState) (CrawlState × Bool) :=
  let currentUrl := cfg.baseUrl ++ nextPath
  let st := { st with fetchLog := st.fetchLog ++ [currentUrl] }
  match outcome with
  | .failure t m =>
    let st := fail_update st nextPath currentUrl t m
    .ok ({ st with pageCount := st.pageCount + 1 }, false)
  | .success status rr finalUrl doc =>
    match (if rr == 0 then handle_redirection st nextPath finalUrl
           else .ok (st, nextPath)) with
    | .error m =>
      let st := fail_update st nextPath currentUrl "Exception" m
      .ok ({ st with pageCount := st.pageCount + 1 }, false)
    | .ok (st, nextPath) =>
      let st := { st with console := st.console ++ [toString status] }
      match (if cfg.findMoreLinks then add_links cfg st doc else .ok st) with
      | .error e => .error e
      | .ok st =>
        let st := download_page st nextPath
        let st := complete_page st nextPath
        let st := { st with console := st.console ++ ["Completed download of " ++ nextPath] }
        if decide (cfg.limit ≤ st.pageCount) then
          .ok ({ st with inProgress := srem st.inProgress nextPath }, true)
        else
          .ok (st, false)

/-- One iteration of `BaseCrawler.crawl_domain`'s while loop (the caller
guarantees `q` is the first member of a nonempty `in_progress`): depth
sampling, the `srandmember` pick, then the fetch cycle. -/
def crawl_iter (cfg : Config) (inp : IterInput) (st : CrawlState) (q : String) :
    Except (String × CrawlState) (CrawlState × Bool) :=
  let st := if st.pageCount % 10 == 0
    then { st with depthSamples := st.depthSamples ++ [scard st.inProgress] } else st
  let nextPath := if sismember st.inProgress inp.pick then inp.pick else q
  crawl_iter_core cfg inp.outcome st nextPath

/-- The while loop of `BaseCrawler.crawl_domain`, fuel-bounded. -/
def crawl_loop (cfg : Config) (oracle : Nat → IterInput) :
    Nat → Nat → CrawlState → Except (String × CrawlState) CrawlState
  | 0, _, st => .ok st
  | fuel + 1, i, st =>
    match st.inProgress with
    | [] => .ok st
    | q :: _ =>
      match crawl_iter cfg (oracle i) st q with
      | .error e => .error e
      | .ok (st, brk) =>
        if brk then .ok st else crawl_loop cfg oracle fuel (i + 1) st

/-- `BaseCrawler.crawl_domain`: seed the start path when `in_progress` is
empty, then run the loop. -/
def crawl_domain (cfg : Config) (oracle : Nat → IterInput) (fuel : Nat)
    (st : CrawlState) : Except (String × CrawlState) CrawlState :=
  let st := if scard st.inProgress == 0
    then { st with inProgress := sadd st.inProgress cfg.path } else st
  crawl_loop cfg oracle fuel 0 st

/-- `BaseCrawler.__init__` together with `prepare_url`: fatal configuration
errors at construction, otherwise the immutable job data.  An unset scheme
renders as `None` inside `base_url` (Python f-string). -/
def mk_crawler (downloadPathExists : Bool) (startUrl : String)
    (allow avoid : List String) (findMoreLinks : Bool) (limit : Nat) :
    Except String Config :=
  if !downloadPathExists then .error "Non-existent download path"
  else
    let parts := url_parts startUrl
    if !(pyTruthy parts.2.1) then .error "Invalid starting url"
    else
      .ok { scheme := parts.1,
            domain := pyStr parts.2.1,
            baseUrl := pyStr parts.1 ++ "://" ++ pyStr parts.2.1,
            path := parts.2.2,
            allow := allow, avoid := avoid,
            findMoreLinks := findMoreLinks, limit := limit }

/-!
Store-operation granularity.  The loops above apply each frontier move as
one state update, which is the right granularity for end-of-iteration
observations; the partition claim also quantifies over observation points
between the individual Redis commands inside one move, so the exact command
sequences of the source are recorded as operation lists.
-/

/-- One Redis set command on frontier set 0 (`in_progress`), 1 (`finished`)
or 2 (`errored`) — the indices of `BaseCrawler.rkey`. -/
inductive StoreOp where
  | addOp (setIdx : Nat) (p : String)
  | remOp (setIdx : Nat) (p : String)
deriving Repr, DecidableEq

/-- Apply one Redis set command to the state. -/
def applyOp (st : CrawlState) : StoreOp → CrawlState
  | .addOp 0 p => { st with inProgress := sadd st.inProgress p }
  | .addOp 1 p => { st with finished := sadd st.finished p }
  | .addOp 2 p => { st with errored := sadd st.errored p }
  | .remOp 0 p => { st with inProgress := srem st.inProgress p }
  | .remOp 1 p => { st with finished := srem st.finished p }
  | .remOp 2 p => { st with errored := srem st.errored p }
  | _ => st

/-- Run a command sequence; every prefix of it is an observation point. -/
def runOps (st : CrawlState) (ops : List StoreOp) : CrawlState :=
  ops.foldl applyOp st

/-- The command sequence of `complete_page` (base_crawler.py lines 397-399):
add to `finished` first, then remove from `in_progress`. -/
def complete_page_ops (p : String) : List StoreOp :=
  [.addOp 1 p, .remOp 0 p]

/-- The command sequence of the `except` branch of `crawl_domain` (lines
170-171): add to `errored` first, then remove from `in_progress`. -/
def error_branch_ops (p : String) : List StoreOp :=
  [.addOp 2 p, .remOp 0 p]

/-- The command sequence of `handle_redirection` (lines 207-210). -/
def handle_redirection_ops (oldPath newPath : String) : List StoreOp :=
  [.remOp 0 oldPath, .addOp 1 oldPath, .addOp 0 newPath]

/-- The spec's partition invariant at one path: the path is in at most one
of the three frontier sets. -/
def partitionOkAt (st : CrawlState) (p : String) : Bool :=
  (!(sismember st.inProgress p) ||
    (!(sismember st.finished p) && !(sismember st.errored p))) &&
  (!(sismember st.finished p) || !(sismember st.errored p))

/-- The spec's partition invariant: every path is in at most one set. -/
def partitionOk (st : CrawlState) : Bool :=
  st.inProgress.all (fun p => !(sismember st.finished p) && !(sismember st.errored p)) &&
  st.finished.all (fun p => !(sismember st.errored p))

/-!
The Epicurious paginated-search loop and its page/image persistence.
-/

/-- `EpicuriousCrawler.download_image`.  The crash in its `except` branch is
modelled faithfully: the source calls
`self.log_crawler_error(next_path, e, note='image')`, but no name
`next_path` is bound in `download_image` (its parameters are `soup`, `path`,
`file_name`), so evaluating the argument raises `NameError` before any
record is written, and that exception propagates. -/
def epi_download_image (cfg : Config) (st : CrawlState) (doc : Document)
    (fileName : String) : Except (String × CrawlState) CrawlState :=
  match doc.recipeImgSrcset with
  | none => .ok st
  | some srcset =>
    if !(pyTruthy srcset) then .ok st
    else
      let imgUrl := pyStr srcset
      let parts := url_parts imgUrl
      let imgPath := parts.2.2
      let _rebasedUrl := if !(pyTruthy parts.2.1) then cfg.baseUrl ++ imgPath else imgUrl
      let imgFileName := fileName ++ "." ++ (((imgPath.splitOn ".").getLast?).getD "")
      if doc.imgFileExists then .ok st
      else
        match doc.imgFetch with
        | .error _ => .error ("NameError: name 'next_path' is not defined", st)
        | .ok _ => .ok { st with savedImages := st.savedImages ++ [imgFileName] }

/-- `EpicuriousCrawler.download_page`: trim to `div.main-content` (printing
when it is missing), download the image, write the trimmed page. -/
def epi_download_page (cfg : Config) (st : CrawlState) (doc : Document)
    (path : String) : Except (String × CrawlState) CrawlState :=
  let fileName := flatten_path path
  let st := if !doc.mainContentPresent
    then { st with console := st.console ++ ["Missing  'div.main-content' for " ++ path] }
    else st
  match epi_download_image cfg st doc fileName with
  | .error e => .error e
  | .ok st => .ok { st with savedPages := st.savedPages ++ [fileName ++ ".html"] }

/-- The call at epicurious.py:57: `self.download_page(html, next_path)`
passes the raw response bytes as the `soup` parameter of the overridden
`EpicuriousCrawler.download_page`.  Line 114's `file_name` computation on
the `str` path succeeds and has no effect, and then line 115's
`soup.select_one('div.main-content')` is an attribute lookup on a `bytes`
object, which raises `AttributeError` before anything is selected or
written (contrast `download_recipes`, line 97, which passes the parsed
soup).  The call sits outside the loop's `try`, so the exception
propagates out of `crawl_domain`. -/
def epi_download_page_raw (st : CrawlState) :
    Except (String × CrawlState) CrawlState :=
  .error ("AttributeError: 'bytes' object has no attribute 'select_one'", st)

/-- Result of one pass of the Epicurious search loop: stop, advance to a
page number, or an uncaught exception. -/
inductive EpiStep where
  | stop (st : CrawlState)
  | next (pageNumber : Nat) (st : CrawlState)
  | fatal (e : String) (st : CrawlState)
deriving Repr, DecidableEq

/-- One pass of `EpicuriousCrawler.crawl_domain`'s while loop. -/
def epi_iter (cfg : Config) (oracle : Nat → FetchOutcome) (pageNumber : Nat)
    (st : CrawlState) : EpiStep :=
  if pageNumber > 2500 then
    .stop { st with console := st.console ++
      ["Page limit reached before finding the \"Dont Cry\" page"] }
  else
    let nextPath := "/search?page=" ++ toString pageNumber
    if sismember st.finished nextPath then .next (pageNumber + 1) st
    else
      let currentUrl := cfg.baseUrl ++ nextPath
      let st := { st with fetchLog := st.fetchLog ++ [currentUrl] }
      match oracle pageNumber with
      | .failure t m => .next (pageNumber + 1) (fail_update st nextPath currentUrl t m)
      | .success status rr finalUrl doc =>
        match (if rr == 0 then handle_redirection st nextPath finalUrl
               else .ok (st, nextPath)) with
        | .error m => .next (pageNumber + 1) (fail_update st nextPath currentUrl "Exception" m)
        | .ok (st, nextPath) =>
          let st := { st with console := st.console ++ [toString status] }
          if doc.endMarker then
            .stop { st with console := st.console ++ ["Reached the final search page"] }
          else
            match (if cfg.findMoreLinks then add_links cfg st doc else .ok st) with
            | .error e => .fatal e.1 e.2
            | .ok st =>
              match epi_download_page_raw st with
              | .error e => .fatal e.1 e.2
              | .ok st =>
                let st := complete_page st nextPath
                .next (pageNumber + 1)
                  { st with console := st.console ++ ["Completed download of " ++ nextPath] }

/-- The while loop of `EpicuriousCrawler.crawl_domain`, fuel-bounded. -/
def epi_loop (cfg : Config) (oracle : Nat → FetchOutcome) :
    Nat → Nat → CrawlState → Except (String × CrawlState) CrawlState
  | 0, _, st => .ok st
  | fuel + 1, pageNumber, st =>
    match epi_iter cfg oracle pageNumber st with
    | .stop st => .ok st
    | .fatal e st => .error (e, st)
    | .next pn st => epi_loop cfg oracle fuel pn st

/-- `EpicuriousCrawler.crawl_domain`: the page-number cursor starts at its
default value 1. -/
def epi_crawl_domain (cfg : Config) (oracle : Nat → FetchOutcome) (fuel : Nat)
    (st : CrawlState) : Except (String × CrawlState) CrawlState :=
  epi_loop cfg oracle fuel 1 st

/-!
Comparison definitions written from the spec's wording (for refinement
checks against the code's definitions above), and concrete fixtures.
-/

/-- Python `s.endswith(suf)`. -/
def pyEndswith (s suf : String) : Bool :=
  suf.toList.isSuffixOf s.toList

/-- Modelled from the claim's wording: strip one leading `www.` prefix and
one trailing `/`, as a prefix/suffix strip. -/
def stripDomClaimed (d : String) : String :=
  let d1 := if pyStartswith d "www." then d.drop 4 else d
  if pyEndswith d1 "/" then d1.dropRight 1 else d1

/-- Modelled from the claim's wording of `sameDomain`: true when the
candidate is unset or both domains agree after the prefix/suffix strip. -/
def same_domains_claimed (cfg : Config) (domain : Option String) : Bool :=
  match domain with
  | none => true
  | some d => stripDomClaimed cfg.domain == stripDomClaimed d

/-- Modelled from the claim's wording of the candidate enumeration: with an
`allow` list, exactly the anchors whose href contains an allow substring;
otherwise the anchors with a non-empty href and non-empty text. -/
def page_links_claimed (cfg : Config) (doc : Document) : List Anchor :=
  if cfg.allow.isEmpty then
    doc.anchors.filter (fun a => pyTruthy a.href && a.text != "")
  else
    doc.anchors.filter (fun a =>
      match a.href with
      | some h => cfg.allow.any (fun s => pyIn s h)
      | none => false)

/-- Empty crawl state. -/
def st0 : CrawlState :=
  { inProgress := [], finished := [], errored := [], depthSamples := [],
    errorLog := [], console := [], savedPages := [], savedImages := [],
    fetchLog := [], pageCount := 0 }

/-- A job for `https://example.com/start` with default options. -/
def cfg0 : Config :=
  { scheme := some "https", domain := "example.com",
    baseUrl := "https://example.com", path := "/start",
    allow := [], avoid := [], findMoreLinks := true, limit := 1000 }

/-- An empty fetched document. -/
def doc0 : Document :=
  { anchors := [], endMarker := false, mainContentPresent := true,
    recipeImgSrcset := none, imgFileExists := false, imgFetch := .ok () }

example : mk_crawler true "https://example.com/start" [] [] true 1000 = .ok cfg0 := rfl

/-!
Basic lemmas about the frontier operations.
-/

lemma mem_sadd (s : List String) (p q : String) :
    q ∈ sadd s p ↔ q ∈ s ∨ q = p := by
  unfold sadd
  split
  · next hp =>
      constructor
      · exact Or.inl
      · rintro (h | rfl)
        · exact h
        · exact hp
  · simp

lemma mem_srem (s : List String) (p q : String) :
    q ∈ srem s p ↔ q ∈ s ∧ q ≠ p := by
  simp [srem]

lemma sadd_self_of_mem (s : List String) (p : String) (h : p ∈ s) :
    sadd s p = s := by
  simp [sadd, h]

lemma sismember_iff (s : List String) (p : String) :
    sismember s p = true ↔ p ∈ s := by
  simp [sismember]

/-- The partition invariant as a proposition. -/
def PartitionP (st : CrawlState) : Prop :=
  (∀ p ∈ st.inProgress, p ∉ st.finished ∧ p ∉ st.errored) ∧
  (∀ p ∈ st.finished, p ∉ st.errored)

lemma partitionOk_iff (st : CrawlState) : partitionOk st = true ↔ PartitionP st := by
  simp [partitionOk, PartitionP, sismember, List.all_eq_true]

/-!
Characterisation of link discovery: which path one candidate anchor
contributes.  `skip_link` reads only the `finished` and `errored` sets of
the state, so the contribution of an anchor is stable while `add_links`
grows `in_progress`.
-/

/-- The path a single candidate anchor contributes in `add_links`, if any. -/
def added_path (cfg : Config) (st : CrawlState) (a : Anchor) : Option String :=
  if hiddenSkip a then none
  else if !(pyTruthy a.href) then none
  else
    match url_from_href (pyStr a.href) with
    | .error _ => none
    | .ok (linkDomain, linkPath) =>
      if skip_link cfg st linkDomain linkPath then none else some linkPath

lemma skip_link_congr (cfg : Config) (st st' : CrawlState)
    (hf : st'.finished = st.finished) (he : st'.errored = st.errored)
    (d : Option String) (p : String) :
    skip_link cfg st' d p = skip_link cfg st d p := by
  simp [skip_link, hf, he]

lemma added_path_congr (cfg : Config) (st st' : CrawlState)
    (hf : st'.finished = st.finished) (he : st'.errored = st.errored)
    (a : Anchor) : added_path cfg st' a = added_path cfg st a := by
  unfold added_path
  simp only [skip_link_congr cfg st st' hf he]

lemma not_skipped_not_seen (cfg : Config) (st : CrawlState)
    (d : Option String) (p : String) (h : ¬(skip_link cfg st d p = true)) :
    p ∉ st.finished ∧ p ∉ st.errored := by
  rw [skip_link] at h
  simp only [Bool.or_eq_true, not_or] at h
  exact ⟨fun hm => h.1.1.1.2 ((sismember_iff _ _).mpr hm),
         fun hm => h.1.1.2 ((sismember_iff _ _).mpr hm)⟩

lemma added_path_not_seen (cfg : Config) (st : CrawlState) (a : Anchor)
    (p : String) (h : added_path cfg st a = some p) :
    p ∉ st.finished ∧ p ∉ st.errored := by
  unfold added_path at h
  split at h
  · cases h
  · split at h
    · cases h
    · split at h
      · cases h
      · split at h
        · cases h
        · next hskip =>
            cases h
            exact not_skipped_not_seen cfg st _ _ hskip

lemma add_links_skip_step (cfg : Config) (st st' : CrawlState) (a : Anchor)
    (rest : List Anchor) (hnone : added_path cfg st a = none)
    (h4 : ∀ p, p ∈ st'.inProgress ↔
      p ∈ st.inProgress ∨ ∃ b ∈ rest, added_path cfg st b = some p) :
    ∀ p, p ∈ st'.inProgress ↔
      p ∈ st.inProgress ∨ ∃ b ∈ a :: rest, added_path cfg st b = some p := by
  intro p
  rw [h4]
  constructor
  · rintro (hp | ⟨b, hb, hbp⟩)
    · exact Or.inl hp
    · exact Or.inr ⟨b, List.mem_cons_of_mem _ hb, hbp⟩
  · rintro (hp | ⟨b, hb, hbp⟩)
    · exact Or.inl hp
    · rcases List.mem_cons.mp hb with rfl | hb2
      · rw [hnone] at hbp
        cases hbp
      · exact Or.inr ⟨b, hb2, hbp⟩

lemma add_links_go_mem (cfg : Config) (l : List Anchor) (st st' : CrawlState)
    (hok : add_links_go cfg l st = .ok st') :
    st'.finished = st.finished ∧ st'.errored = st.errored ∧
    st'.pageCount = st.pageCount ∧
    (∀ p, p ∈ st'.inProgress ↔
      p ∈ st.inProgress ∨ ∃ a ∈ l, added_path cfg st a = some p) := by
  induction l generalizing st with
  | nil =>
    cases hok
    simp
  | cons a rest ih =>
    unfold add_links_go at hok
    split at hok
    · next hhid =>
        obtain ⟨h1, h2, h3, h4⟩ := ih st hok
        exact ⟨h1, h2, h3, add_links_skip_step cfg st st' a rest
          (by simp [added_path, hhid]) h4⟩
    · next hhid =>
        split at hok
        · next hhref =>
            obtain ⟨h1, h2, h3, h4⟩ := ih st hok
            exact ⟨h1, h2, h3, add_links_skip_step cfg st st' a rest
              (by simp [added_path, hhid, hhref]) h4⟩
        · next hhref =>
            split at hok
            · cases hok
            · rename_i x linkDomain linkPath heq
              clear x
              split at hok
              · next hskip =>
                  obtain ⟨h1, h2, h3, h4⟩ := ih st hok
                  exact ⟨h1, h2, h3, add_links_skip_step cfg st st' a rest
                    (by simp [added_path, hhid, hhref, heq, hskip]) h4⟩
              · next hskip =>
                  obtain ⟨h1, h2, h3, h4⟩ :=
                    ih { st with inProgress := sadd st.inProgress linkPath } hok
                  refine ⟨h1, h2, h3, fun p => ?_⟩
                  rw [h4]
                  have hc : ∀ b, added_path cfg
                      { st with inProgress := sadd st.inProgress linkPath } b =
                      added_path cfg st b :=
                    added_path_congr cfg st _ rfl rfl
                  have ha : added_path cfg st a = some linkPath := by
                    simp [added_path, hhid, hhref, heq, hskip]
                  simp only [hc, mem_sadd]
                  constructor
                  · rintro ((hp | rfl) | ⟨b, hb, hbp⟩)
                    · exact Or.inl hp
                    · exact Or.inr ⟨a, List.mem_cons_self a rest, ha⟩
                    · exact Or.inr ⟨b, List.mem_cons_of_mem _ hb, hbp⟩
                  · rintro (hp | ⟨b, hb, hbp⟩)
                    · exact Or.inl (Or.inl hp)
                    · rcases List.mem_cons.mp hb with rfl | hb2
                      · rw [ha] at hbp
                        cases hbp
                        exact Or.inl (Or.inr rfl)
                      · exact Or.inr ⟨b, hb2, hbp⟩

/-!
Preservation of the partition invariant across one iteration, at
iteration-boundary granularity.  The redirect consolidation target must be
fresh (not already finished or errored); without that hypothesis the
invariant fails, see the counterexample for claim C2.
-/

/-- The redirect target a fetch outcome would consolidate to, if any. -/
def redirTarget (inp : IterInput) : Option String :=
  match inp.outcome with
  | .success _ rr finalUrl _ => if rr == 0 then some ((url_parts finalUrl).2.2) else none
  | .failure _ _ => none

/-- Freshness of an iteration's consolidated redirect target with respect to
a state: the target (when consolidation will run) is not already errored.
A target that is already finished only violates the partition transiently,
inside the iteration: completion moves it back to `finished` by its end. -/
def freshTarget (inp : IterInput) (st : CrawlState) : Bool :=
  match redirTarget inp with
  | some t => !(sismember st.errored t)
  | none => true

lemma partitionP_of_fields (st3 : CrawlState) (ip fin err : List String)
    (hi : st3.inProgress = ip) (hf : st3.finished = fin) (he : st3.errored = err)
    (h1 : ∀ p ∈ ip, p ∉ fin ∧ p ∉ err) (h2 : ∀ p ∈ fin, p ∉ err) :
    PartitionP st3 := by
  unfold PartitionP
  rw [hi, hf, he]
  exact ⟨h1, h2⟩

lemma partition_fail_triple (st : CrawlState) (np : String)
    (hp : PartitionP st) (hnp : np ∈ st.inProgress) :
    (∀ p ∈ srem st.inProgress np, p ∉ st.finished ∧ p ∉ sadd st.errored np) ∧
    (∀ p ∈ st.finished, p ∉ sadd st.errored np) := by
  obtain ⟨h1, h2⟩ := hp
  have hnf : np ∉ st.finished := (h1 np hnp).1
  constructor
  · intro p hpmem
    obtain ⟨hmem, hne⟩ := (mem_srem _ _ _).mp hpmem
    refine ⟨(h1 p hmem).1, fun hin => ?_⟩
    rcases (mem_sadd _ _ _).mp hin with h | h
    · exact (h1 p hmem).2 h
    · exact hne h
  · intro p hpmem hin
    rcases (mem_sadd _ _ _).mp hin with h | rfl
    · exact h2 p hpmem h
    · exact hnf hpmem

lemma partition_complete_triple (ip fin err ip2 : List String) (np : String)
    (h1 : ∀ p ∈ ip, p ∉ fin ∧ p ∉ err) (h2 : ∀ p ∈ fin, p ∉ err)
    (hnp : np ∈ ip)
    (hip2 : ∀ p ∈ ip2, p ∈ ip ∨ (p ∉ fin ∧ p ∉ err)) :
    (∀ p ∈ srem ip2 np, p ∉ sadd fin np ∧ p ∉ err) ∧
    (∀ p ∈ sadd fin np, p ∉ err) := by
  constructor
  · intro p hpmem
    obtain ⟨hmem, hne⟩ := (mem_srem _ _ _).mp hpmem
    have hnotseen : p ∉ fin ∧ p ∉ err := by
      rcases hip2 p hmem with h | h
      · exact h1 p h
      · exact h
    refine ⟨fun hin => ?_, hnotseen.2⟩
    rcases (mem_sadd _ _ _).mp hin with h | h
    · exact hnotseen.1 h
    · exact hne h
  · intro p hpmem
    rcases (mem_sadd _ _ _).mp hpmem with h | heq
    · exact h2 p h
    · rw [heq]
      exact (h1 np hnp).2

lemma partition_redirect_triple (ip fin err ip2 : List String) (old new : String)
    (h1 : ∀ p ∈ ip, p ∉ fin ∧ p ∉ err) (h2 : ∀ p ∈ fin, p ∉ err)
    (hold : old ∈ ip) (hfE : new ∉ err)
    (hip2 : ∀ p ∈ ip2, p ∈ sadd (srem ip old) new ∨ (p ∉ sadd fin old ∧ p ∉ err)) :
    (∀ p ∈ srem ip2 new, p ∉ sadd (sadd fin old) new ∧ p ∉ err) ∧
    (∀ p ∈ sadd (sadd fin old) new, p ∉ err) := by
  constructor
  · intro p hpmem
    obtain ⟨hmem, hne⟩ := (mem_srem _ _ _).mp hpmem
    rcases hip2 p hmem with h | h
    · rcases (mem_sadd _ _ _).mp h with h | heq
      · obtain ⟨hmem2, hne2⟩ := (mem_srem _ _ _).mp h
        refine ⟨fun hin => ?_, (h1 p hmem2).2⟩
        rcases (mem_sadd _ _ _).mp hin with hin | heq
        · rcases (mem_sadd _ _ _).mp hin with hin | heq
          · exact (h1 p hmem2).1 hin
          · exact hne2 heq
        · exact hne heq
      · exact absurd heq hne
    · refine ⟨fun hin => ?_, h.2⟩
      rcases (mem_sadd _ _ _).mp hin with hin | heq
      · exact h.1 hin
      · exact hne heq
  · intro p hpmem
    rcases (mem_sadd _ _ _).mp hpmem with h | heq
    · rcases (mem_sadd _ _ _).mp h with h | heq
      · exact h2 p h
      · rw [heq]
        exact (h1 old hold).2
    · rw [heq]
      exact hfE

lemma partition_srem_triple (ip fin err : List String) (x : String)
    (h1 : ∀ p ∈ ip, p ∉ fin ∧ p ∉ err) (h2 : ∀ p ∈ fin, p ∉ err) :
    (∀ p ∈ srem ip x, p ∉ fin ∧ p ∉ err) ∧ (∀ p ∈ fin, p ∉ err) :=
  ⟨fun p hpmem => h1 p ((mem_srem _ _ _).mp hpmem).1, h2⟩

lemma add_links_sets (cfg : Config) (stC st2 : CrawlState) (doc : Document)
    (hal : add_links cfg stC doc = .ok st2) :
    st2.finished = stC.finished ∧ st2.errored = stC.errored ∧
    (∀ p ∈ st2.inProgress, p ∈ stC.inProgress ∨ (p ∉ stC.finished ∧ p ∉ stC.errored)) := by
  unfold add_links at hal
  obtain ⟨e1, e2, _, e4⟩ := add_links_go_mem cfg (page_links cfg doc) stC st2 hal
  refine ⟨e1, e2, fun p hmem => ?_⟩
  rcases (e4 p).mp hmem with h | ⟨a, _, ha⟩
  · exact Or.inl h
  · exact Or.inr (added_path_not_seen cfg stC a p ha)

lemma crawl_iter_core_partition (cfg : Config) (outcome : FetchOutcome)
    (st : CrawlState) (np : String) (st' : CrawlState) (brk : Bool)
    (hnp : np ∈ st.inProgress) (hp : PartitionP st)
    (hfresh : ∀ status rr fu doc, outcome = .success status rr fu doc →
      (rr == 0) = true → (url_parts fu).2.2 ∉ st.errored)
    (hok : crawl_iter_core cfg outcome st np = .ok (st', brk)) :
    PartitionP st' := by
  obtain ⟨hp1, hp2⟩ := hp
  cases outcome with
  | failure t m =>
    simp only [crawl_iter_core] at hok
    cases hok
    exact partitionP_of_fields _ (srem st.inProgress np) st.finished (sadd st.errored np)
      (by simp [fail_update]) (by simp [fail_update]) (by simp [fail_update])
      (partition_fail_triple st np ⟨hp1, hp2⟩ hnp).1
      (partition_fail_triple st np ⟨hp1, hp2⟩ hnp).2
  | success status rr fu doc =>
    simp only [crawl_iter_core] at hok
    split at hok
    · -- the redirect handling raised; caught by the except branch
      cases hok
      exact partitionP_of_fields _ (srem st.inProgress np) st.finished (sadd st.errored np)
        (by simp [fail_update]) (by simp [fail_update]) (by simp [fail_update])
        (partition_fail_triple st np ⟨hp1, hp2⟩ hnp).1
        (partition_fail_triple st np ⟨hp1, hp2⟩ hnp).2
    · next x stR np' heq =>
      clear x
      split at heq
      · -- consolidation ran: rr == 0
        next hrr =>
          simp only [handle_redirection] at heq
          split at heq
          · cases heq
          · next hne =>
            cases heq
            have hfE : (url_parts fu).2.2 ∉ st.errored :=
              hfresh status rr fu doc rfl hrr
            by_cases hfm : cfg.findMoreLinks = true
            · rw [if_pos hfm] at hok
              split at hok
              · cases hok
              · next x2 st2 hal =>
                clear x2
                have hsets := add_links_sets cfg _ st2 doc hal
                have hf2 : st2.finished = sadd st.finished np := by
                  simpa using hsets.1
                have he2 : st2.errored = st.errored := by
                  simpa using hsets.2.1
                have htriple := partition_redirect_triple
                  st.inProgress st.finished st.errored st2.inProgress
                  np ((url_parts fu).2.2) hp1 hp2 hnp hfE
                  (fun p hm => by
                    rcases hsets.2.2 p hm with h | h
                    · exact Or.inl (by simpa using h)
                    · exact Or.inr (by simpa using h))
                split at hok
                · cases hok
                  exact partitionP_of_fields _
                    (srem (srem st2.inProgress ((url_parts fu).2.2)) ((url_parts fu).2.2))
                    (sadd (sadd st.finished np) ((url_parts fu).2.2)) st.errored
                    (by simp [complete_page, download_page])
                    (by simp [complete_page, download_page, hf2])
                    (by simp [complete_page, download_page, he2])
                    (partition_srem_triple _ _ _ ((url_parts fu).2.2) htriple.1 htriple.2).1
                    (partition_srem_triple _ _ _ ((url_parts fu).2.2) htriple.1 htriple.2).2
                · cases hok
                  exact partitionP_of_fields _
                    (srem st2.inProgress ((url_parts fu).2.2))
                    (sadd (sadd st.finished np) ((url_parts fu).2.2)) st.errored
                    (by simp [complete_page, download_page])
                    (by simp [complete_page, download_page, hf2])
                    (by simp [complete_page, download_page, he2])
                    htriple.1 htriple.2
            · rw [if_neg hfm] at hok
              dsimp only at hok
              have htriple := partition_redirect_triple
                st.inProgress st.finished st.errored
                (sadd (srem st.inProgress np) ((url_parts fu).2.2))
                np ((url_parts fu).2.2) hp1 hp2 hnp hfE
                (fun p hm => Or.inl hm)
              split at hok
              · cases hok
                exact partitionP_of_fields _
                  (srem (srem (sadd (srem st.inProgress np) ((url_parts fu).2.2))
                    ((url_parts fu).2.2)) ((url_parts fu).2.2))
                  (sadd (sadd st.finished np) ((url_parts fu).2.2)) st.errored
                  (by simp [complete_page, download_page])
                  (by simp [complete_page, download_page])
                  (by simp [complete_page, download_page])
                  (partition_srem_triple _ _ _ ((url_parts fu).2.2) htriple.1 htriple.2).1
                  (partition_srem_triple _ _ _ ((url_parts fu).2.2) htriple.1 htriple.2).2
              · cases hok
                exact partitionP_of_fields _
                  (srem (sadd (srem st.inProgress np) ((url_parts fu).2.2))
                    ((url_parts fu).2.2))
                  (sadd (sadd st.finished np) ((url_parts fu).2.2)) st.errored
                  (by simp [complete_page, download_page])
                  (by simp [complete_page, download_page])
                  (by simp [complete_page, download_page])
                  htriple.1 htriple.2
      · -- no consolidation: rr != 0
        next hrr =>
          cases heq
          by_cases hfm : cfg.findMoreLinks = true
          · rw [if_pos hfm] at hok
            split at hok
            · cases hok
            · next x2 st2 hal =>
              clear x2
              have hsets := add_links_sets cfg _ st2 doc hal
              have hf2 : st2.finished = st.finished := by
                simpa using hsets.1
              have he2 : st2.errored = st.errored := by
                simpa using hsets.2.1
              have htriple := partition_complete_triple
                st.inProgress st.finished st.errored st2.inProgress np
                hp1 hp2 hnp
                (fun p hm => by
                  rcases hsets.2.2 p hm with h | h
                  · exact Or.inl (by simpa using h)
                  · exact Or.inr (by simpa using h))
              split at hok
              · cases hok
                exact partitionP_of_fields _
                  (srem (srem st2.inProgress np) np)
                  (sadd st.finished np) st.errored
                  (by simp [complete_page, download_page])
                  (by simp [complete_page, download_page, hf2])
                  (by simp [complete_page, download_page, he2])
                  (partition_srem_triple _ _ _ np htriple.1 htriple.2).1
                  (partition_srem_triple _ _ _ np htriple.1 htriple.2).2
              · cases hok
                exact partitionP_of_fields _
                  (srem st2.inProgress np)
                  (sadd st.finished np) st.errored
                  (by simp [complete_page, download_page])
                  (by simp [complete_page, download_page, hf2])
                  (by simp [complete_page, download_page, he2])
                  htriple.1 htriple.2
          · rw [if_neg hfm] at hok
            dsimp only at hok
            have htriple := partition_complete_triple
              st.inProgress st.finished st.errored st.inProgress np
              hp1 hp2 hnp (fun p hm => Or.inl hm)
            split at hok
            · cases hok
              exact partitionP_of_fields _
                (srem (srem st.inProgress np) np)
                (sadd st.finished np) st.errored
                (by simp [complete_page, download_page])
                (by simp [complete_page, download_page])
                (by simp [complete_page, download_page])
                (partition_srem_triple _ _ _ np htriple.1 htriple.2).1
                (partition_srem_triple _ _ _ np htriple.1 htriple.2).2
            · cases hok
              exact partitionP_of_fields _
                (srem st.inProgress np)
                (sadd st.finished np) st.errored
                (by simp [complete_page, download_page])
                (by simp [complete_page, download_page])
                (by simp [complete_page, download_page])
                htriple.1 htriple.2

lemma freshTarget_spec (inp : IterInput) (st : CrawlState)
    (h : freshTarget inp st = true) :
    ∀ status rr fu doc, inp.outcome = .success status rr fu doc →
      (rr == 0) = true → (url_parts fu).2.2 ∉ st.errored := by
  intro status rr fu doc hout hrr
  unfold freshTarget redirTarget at h
  rw [hout] at h
  simp only [hrr, if_true] at h
  intro hmem
  rw [(sismember_iff st.errored ((url_parts fu).2.2)).mpr hmem] at h
  simp at h

/-!
Claim theorems.  Each claim of the specification is settled by exactly one
theorem below (plus a witness or counterexample where required).
-/

/-- Fixtures for the C1 witness: a one-path frontier, and a fetch that is
consolidated to the fresh path `/new` and completes it. -/
def c1st : CrawlState := { st0 with inProgress := ["/a"] }

/-- The C1 witness iteration input. -/
def c1inp : IterInput :=
  { pick := "/a", outcome := .success 200 0 "https://example.com/new" doc0 }

/-- The state after the C1 witness iteration. -/
def c1after : CrawlState :=
  { inProgress := [], finished := ["/a", "/new"], errored := [],
    depthSamples := [1], errorLog := [],
    console := ["200", "Completed download of /new"],
    savedPages := ["new.html"], savedImages := [],
    fetchLog := ["https://example.com/a"], pageCount := 1 }

/-- Claim C1, as stated, is false on the code: the partition invariant is
violated between the two store commands inside `complete_page`, which adds
the path to `finished` (line 398) before removing it from `in_progress`
(line 399).  Starting from a partition-respecting state whose frontier
holds only `/a`, the observation point after the first command has `/a` in
both `in_progress` and `finished`. -/
theorem claim1_partition_counterexample :
    partitionOk { st0 with inProgress := ["/a"] } = true ∧
    runOps { st0 with inProgress := ["/a"] } ((complete_page_ops "/a").take 1) =
      { st0 with inProgress := ["/a"], finished := ["/a"] } ∧
    partitionOk { st0 with inProgress := ["/a"], finished := ["/a"] } = false := by
  exact ⟨by decide, by decide, by decide⟩

/-- Consistency of the fine-grained command sequence of `complete_page`
with the coarse state update. -/
lemma complete_page_ops_agree (st : CrawlState) (p : String) :
    (runOps st (complete_page_ops p)).inProgress = (complete_page st p).inProgress ∧
    (runOps st (complete_page_ops p)).finished = (complete_page st p).finished ∧
    (runOps st (complete_page_ops p)).errored = (complete_page st p).errored := by
  simp [runOps, complete_page_ops, applyOp, complete_page]

/-- Claim C1 (amended): the partition invariant holds at iteration
boundaries, not at every store-command boundary: one iteration of the BFS
crawl loop maps a partition-respecting state to a partition-respecting
state provided the consolidated redirect target (when consolidation runs)
is not a path that already errored.  Between the individual store commands
of a single move a path is transiently in two sets, because each move adds
to the destination set before removing from `in_progress` (the
counterexample); and a redirect whose target is an errored path breaks the
invariant even at iteration boundaries (the counterexample of claim C2). -/
theorem claim1_partition_amended (cfg : Config) (inp : IterInput)
    (st : CrawlState) (q : String) (st' : CrawlState) (brk : Bool)
    (hq : q ∈ st.inProgress)
    (hpart : partitionOk st = true)
    (hfresh : freshTarget inp st = true)
    (hok : crawl_iter cfg inp st q = .ok (st', brk)) :
    partitionOk st' = true := by
  rw [partitionOk_iff] at hpart ⊢
  simp only [crawl_iter] at hok
  split at hok
  · next hmod =>
    split at hok
    · next hpick =>
      refine crawl_iter_core_partition cfg inp.outcome _ inp.pick st' brk
        ?_ ?_ ?_ hok
      · exact (sismember_iff _ _).mp (by simpa using hpick)
      · exact partitionP_of_fields _ st.inProgress st.finished st.errored
          (by simp) (by simp) (by simp) hpart.1 hpart.2
      · intro status rr fu doc hout hrr
        have := freshTarget_spec inp st hfresh status rr fu doc hout hrr
        simpa using this
    · refine crawl_iter_core_partition cfg inp.outcome _ q st' brk ?_ ?_ ?_ hok
      · simpa using hq
      · exact partitionP_of_fields _ st.inProgress st.finished st.errored
          (by simp) (by simp) (by simp) hpart.1 hpart.2
      · intro status rr fu doc hout hrr
        have := freshTarget_spec inp st hfresh status rr fu doc hout hrr
        simpa using this
  · split at hok
    · next hpick =>
      refine crawl_iter_core_partition cfg inp.outcome _ inp.pick st' brk
        ?_ ?_ ?_ hok
      · exact (sismember_iff _ _).mp (by simpa using hpick)
      · exact ⟨hpart.1, hpart.2⟩
      · exact freshTarget_spec inp st hfresh
    · refine crawl_iter_core_partition cfg inp.outcome _ q st' brk ?_ ?_ ?_ hok
      · exact hq
      · exact ⟨hpart.1, hpart.2⟩
      · exact freshTarget_spec inp st hfresh

/-- Witness for the amended C1: a concrete consolidated iteration whose
result respects the partition. -/
theorem claim1_partition_amended_witness : partitionOk c1after = true :=
  claim1_partition_amended cfg0 c1inp c1st "/a" c1after false
    (by decide) (by decide) (by decide) rfl

/-- Claim C2, as stated, is false on the code: redirect consolidation adds
the redirect target to `in_progress` unconditionally (base_crawler.py:210),
without consulting `finished` or `errored`.  With `/p` already finished and
`/q` in progress, a fetch of `/q` whose final url resolves to path `/p`
puts `/p` back into `in_progress`. -/
theorem claim2_no_reentry_counterexample :
    "/p" ∈ ({ st0 with inProgress := ["/q"], finished := ["/p"] } : CrawlState).finished ∧
    handle_redirection { st0 with inProgress := ["/q"], finished := ["/p"] }
      "/q" "https://example.com/p" =
      .ok ({ st0 with inProgress := ["/p"], finished := ["/p", "/q"] }, "/p") ∧
    "/p" ∈ ({ st0 with inProgress := ["/p"], finished := ["/p", "/q"] } : CrawlState).inProgress := by
  exact ⟨by decide, rfl, by decide⟩

/-- Claim C2 (amended): link discovery never re-enqueues a finished or
errored path — every path in `in_progress` after `add_links` was either
already there or is neither finished nor errored — and adding an
already-present member to a store set is a no-op.  However redirect
consolidation and seeding add their path unconditionally, so a finished or
errored path can re-enter `in_progress` through a redirect target or a
re-seed (the counterexample). -/
theorem claim2_no_reentry_amended :
    (∀ cfg st doc st', add_links cfg st doc = .ok st' →
      ∀ p, p ∈ st'.inProgress →
        p ∈ st.inProgress ∨ (p ∉ st.finished ∧ p ∉ st.errored)) ∧
    (∀ s : List String, ∀ p : String, p ∈ s → sadd s p = s) := by
  constructor
  · intro cfg st doc st' hok p hmem
    exact (add_links_sets cfg st st' doc hok).2.2 p hmem
  · exact sadd_self_of_mem

/-- The document used by the C2 witness: one plain same-site anchor. -/
def c2doc : Document :=
  { doc0 with anchors := [{ href := some "/n", text := "x", serialized := "<a>x</a>" }] }

/-- Witness for the amended C2: the discovered path `/n` is fresh, and
re-adding a present member is a no-op. -/
theorem claim2_no_reentry_amended_witness :
    ("/n" ∈ ({ st0 with finished := ["/f"] } : CrawlState).inProgress ∨
      ("/n" ∉ ({ st0 with finished := ["/f"] } : CrawlState).finished ∧
       "/n" ∉ ({ st0 with finished := ["/f"] } : CrawlState).errored)) ∧
    sadd ["/x"] "/x" = ["/x"] :=
  ⟨claim2_no_reentry_amended.1 cfg0 { st0 with finished := ["/f"] } c2doc
      { st0 with finished := ["/f"], inProgress := ["/n"] } rfl "/n" (by decide),
   claim2_no_reentry_amended.2 ["/x"] "/x" (by decide)⟩

/-!
Claim C3: redirect consolidation.  Auxiliary fact: the extracted path of
`url_parts` is never falsy, so the defensive `Missing redirected URL` raise
is unreachable.
-/

lemma hostPath_path_nonempty (cs : List Char) (h p : String)
    (hm : hostPath cs = some (h, p)) : p ≠ "" := by
  simp only [hostPath] at hm
  split at hm
  · cases hm
  · split at hm
    · cases hm
      intro hcon
      exact List.cons_ne_nil _ _ (congrArg String.toList hcon)
    · cases hm

lemma tryAt_path_nonempty (cs : List Char) (s : Option String) (h p : String)
    (hm : tryAt cs = some (s, h, p)) : p ≠ "" := by
  unfold tryAt at hm
  split at hm
  · split at hm
    · next heq =>
        cases hm
        exact hostPath_path_nonempty _ _ _ heq
    · simp only [Option.map_eq_some'] at hm
      obtain ⟨⟨h2, p2⟩, heq, hmk⟩ := hm
      cases hmk
      exact hostPath_path_nonempty _ _ _ heq
  · simp only [Option.map_eq_some'] at hm
    obtain ⟨⟨h2, p2⟩, heq, hmk⟩ := hm
    cases hmk
    exact hostPath_path_nonempty _ _ _ heq

lemma searchFrom_path_nonempty (cs : List Char) (s : Option String) (h p : String)
    (hm : searchFrom cs = some (s, h, p)) : p ≠ "" := by
  induction cs with
  | nil => cases hm
  | cons c tl ih =>
    unfold searchFrom at hm
    split at hm
    · next heq =>
        cases hm
        exact tryAt_path_nonempty _ _ _ _ heq
    · exact ih hm

lemma url_parts_path_nonempty (url : String) : (url_parts url).2.2 ≠ "" := by
  unfold url_parts
  cases hm : searchFrom url.toList with
  | some r =>
    obtain ⟨s, h, p⟩ := r
    exact searchFrom_path_nonempty _ _ _ _ hm
  | none =>
    dsimp only
    by_cases hs : pyStartswith url "/" = true
    · rw [if_pos hs]
      unfold pyStartswith at hs
      rw [ List.isPrefixOf_iff_prefix] at hs
      obtain ⟨t, ht⟩ := hs
      intro hcon
      rw [hcon] at ht
      simp at ht
    · rw [if_neg hs]
      intro hcon
      have h2 : '/' :: url.data = [] := congrArg String.toList hcon
      exact List.cons_ne_nil _ _ h2

/-- Claim C3: redirect consolidation.  (i) With the transport contract —
the remaining-redirect counter `retries.redirect` starts at 1 and drops by
one per followed redirect, of which there is at most one — the guard
`retries.redirect == 0` holds exactly when one redirect was followed.
(ii) Consolidation extracts the new path from the final url, enqueues it,
moves the old path to `finished` and removes it from `in_progress`, and
returns the new path.  (iii) It raises `Missing redirected URL` exactly
when the extracted path is falsy, which (iii') never happens.  (iv) In a
successful consolidated iteration the remaining steps (persistence,
completion) use the new path; (v) without a redirect they use the picked
path and no consolidation happens. -/
theorem claim3_redirect_consolidation :
    (∀ followed rr : Nat, rr = 1 - followed → followed ≤ 1 →
      ((rr == 0) = true ↔ followed = 1)) ∧
    (∀ st old finalUrl st' newPath,
      handle_redirection st old finalUrl = .ok (st', newPath) →
      newPath = (url_parts finalUrl).2.2 ∧
      newPath ∈ st'.inProgress ∧ old ∈ st'.finished ∧
      (old ≠ newPath → old ∉ st'.inProgress)) ∧
    (∀ st old finalUrl,
      handle_redirection st old finalUrl = .error "Missing redirected URL" ↔
        (url_parts finalUrl).2.2 = "") ∧
    (∀ finalUrl, (url_parts finalUrl).2.2 ≠ "") ∧
    (∀ cfg status fu doc st np st' brk,
      cfg.findMoreLinks = false →
      crawl_iter_core cfg (.success status 0 fu doc) st np = .ok (st', brk) →
      st'.finished = sadd (sadd st.finished np) ((url_parts fu).2.2) ∧
      st'.savedPages = st.savedPages ++ [flatten_path ((url_parts fu).2.2) ++ ".html"]) ∧
    (∀ cfg status rr fu doc st np st' brk, rr ≠ 0 →
      cfg.findMoreLinks = false →
      crawl_iter_core cfg (.success status rr fu doc) st np = .ok (st', brk) →
      st'.finished = sadd st.finished np ∧
      st'.savedPages = st.savedPages ++ [flatten_path np ++ ".html"]) := by
  refine ⟨?_, ?_, ?_, url_parts_path_nonempty, ?_, ?_⟩
  · intro followed rr hrr hle
    subst hrr
    interval_cases followed <;> simp
  · intro st old finalUrl st' newPath hok
    simp only [handle_redirection] at hok
    split at hok
    · cases hok
    · cases hok
      refine ⟨rfl, (mem_sadd _ _ _).mpr (Or.inr rfl),
        (mem_sadd _ _ _).mpr (Or.inr rfl), fun hne2 hmem => ?_⟩
      rcases (mem_sadd _ _ _).mp hmem with h | h
      · exact ((mem_srem _ _ _).mp h).2 rfl
      · exact hne2 h
  · intro st old finalUrl
    simp only [handle_redirection]
    split
    · next hcond => simp [beq_iff_eq.mp hcond]
    · next hcond =>
        constructor
        · intro h
          cases h
        · intro h
          exact absurd (beq_iff_eq.mpr h) hcond
  · intro cfg status fu doc st np st' brk hfm hok
    simp only [crawl_iter_core, handle_redirection] at hok
    split at hok
    · next x m hcond =>
        rw [if_pos (by decide)] at hcond
        split at hcond
        · next hzero =>
            exact absurd (beq_iff_eq.mp hzero) (url_parts_path_nonempty fu)
        · cases hcond
    · next x stR np' heq =>
        rw [if_pos (by decide)] at heq
        split at heq
        · cases heq
        · next hne =>
            cases heq
            rw [if_neg (by rw [hfm]; exact Bool.false_ne_true)] at hok
            dsimp only at hok
            split at hok
            · cases hok
              exact ⟨by simp [complete_page, download_page],
                by simp [complete_page, download_page]⟩
            · cases hok
              exact ⟨by simp [complete_page, download_page],
                by simp [complete_page, download_page]⟩
  · intro cfg status rr fu doc st np st' brk hrr hfm hok
    simp only [crawl_iter_core] at hok
    rw [if_neg (by simpa using hrr)] at hok
    dsimp only at hok
    rw [if_neg (by rw [hfm]; exact Bool.false_ne_true)] at hok
    dsimp only at hok
    split at hok
    · cases hok
      constructor
      · simp [complete_page, download_page]
      · simp [complete_page, download_page]
    · cases hok
      constructor
      · simp [complete_page, download_page]
      · simp [complete_page, download_page]

/-- Fixtures for the C3 witness. -/
def c3cfg : Config := { cfg0 with findMoreLinks := false }

/-- One-path frontier for the C3 witness. -/
def c3st : CrawlState := { st0 with inProgress := ["/a"] }

/-- State after consolidating a redirect of `/q` to `/p`. -/
def c3redirSt : CrawlState := { st0 with inProgress := ["/p"], finished := ["/q"] }

/-- State after the consolidated C3 witness iteration. -/
def c3after : CrawlState :=
  { inProgress := [], finished := ["/a", "/p"], errored := [], depthSamples := [],
    errorLog := [], console := ["200", "Completed download of /p"],
    savedPages := ["p.html"], savedImages := [],
    fetchLog := ["https://example.com/a"], pageCount := 1 }

/-- State after the redirect-free C3 witness iteration. -/
def c3afterNoRedir : CrawlState :=
  { inProgress := [], finished := ["/a"], errored := [], depthSamples := [],
    errorLog := [], console := ["200", "Completed download of /a"],
    savedPages := ["a.html"], savedImages := [],
    fetchLog := ["https://example.com/a"], pageCount := 1 }

/-- Witness for C3: each consolidation fact at a concrete input. -/
theorem claim3_redirect_consolidation_witness :
    ((0 == 0) = true ↔ 1 = 1) ∧
    ("/p" = (url_parts "https://example.com/p").2.2 ∧
      "/p" ∈ c3redirSt.inProgress ∧ "/q" ∈ c3redirSt.finished ∧
      ("/q" ≠ "/p" → "/q" ∉ c3redirSt.inProgress)) ∧
    (c3after.finished = sadd (sadd c3st.finished "/a")
        ((url_parts "https://example.com/p").2.2) ∧
      c3after.savedPages = c3st.savedPages ++
        [flatten_path ((url_parts "https://example.com/p").2.2) ++ ".html"]) ∧
    (c3afterNoRedir.finished = sadd c3st.finished "/a" ∧
      c3afterNoRedir.savedPages = c3st.savedPages ++ [flatten_path "/a" ++ ".html"]) :=
  ⟨claim3_redirect_consolidation.1 1 0 (by decide) (by decide),
   claim3_redirect_consolidation.2.1 { st0 with inProgress := ["/q"] } "/q"
     "https://example.com/p" c3redirSt "/p" rfl,
   claim3_redirect_consolidation.2.2.2.2.1 c3cfg 200 "https://example.com/p" doc0
     c3st "/a" c3after false rfl rfl,
   claim3_redirect_consolidation.2.2.2.2.2 c3cfg 200 1 "" doc0
     c3st "/a" c3afterNoRedir false (by decide) rfl rfl⟩

/-!
Claim C4: termination at the page limit.
-/

lemma crawl_iter_core_break_limit (cfg : Config) (outcome : FetchOutcome)
    (st : CrawlState) (np : String) (st' : CrawlState)
    (hok : crawl_iter_core cfg outcome st np = .ok (st', true)) :
    cfg.limit ≤ st'.pageCount := by
  cases outcome with
  | failure t m =>
    simp only [crawl_iter_core] at hok
    cases hok
  | success status rr fu doc =>
    simp only [crawl_iter_core] at hok
    split at hok
    · cases hok
    · next x stR np' heq =>
      by_cases hfm : cfg.findMoreLinks = true
      · rw [if_pos hfm] at hok
        split at hok
        · cases hok
        · next x2 st2 hal =>
          split at hok
          · next hlim =>
              cases hok
              simpa using of_decide_eq_true hlim
          · cases hok
      · rw [if_neg hfm] at hok
        dsimp only at hok
        split at hok
        · next hlim =>
            cases hok
            simpa using of_decide_eq_true hlim
        · cases hok

/-- Claim C4, as stated, is false on the code: the page-limit check (lines
182-184) sits at the end of the success path only; the failure branch
`continue`s (line 173) without checking it.  With a limit of 1, a first
iteration that fails reaches `pageCount = 1 ≥ limit`, yet the loop fetches
a second path. -/
def c4cfg : Config := { cfg0 with limit := 1, findMoreLinks := false }

/-- Two-path frontier for the C4 counterexample. -/
def c4st : CrawlState := { st0 with inProgress := ["/a", "/b"] }

/-- Oracle for the C4 counterexample: the first fetch fails, the second
succeeds. -/
def c4oracle : Nat → IterInput := fun i =>
  if i = 0 then { pick := "/a", outcome := .failure "HTTPError" "boom" }
  else { pick := "/b", outcome := .success 200 1 "" doc0 }

/-- Claim C4 counterexample: after the failed first iteration the counter
has reached the limit, yet the full run fetches a second url. -/
theorem claim4_page_limit_counterexample :
    Except.map (fun s => s.pageCount) (crawl_loop c4cfg c4oracle 1 0 c4st) = .ok 1 ∧
    c4cfg.limit = 1 ∧
    Except.map (fun s => s.fetchLog) (crawl_loop c4cfg c4oracle 3 0 c4st) =
      .ok ["https://example.com/a", "https://example.com/b"] :=
  ⟨rfl, rfl, rfl⟩

/-- Claim C4 (amended): the page-limit check runs only at the end of
successful iterations.  (a) A breaking iteration ends the run: the loop
returns that iteration's state, so no further path is fetched.  (b) An
iteration breaks only with `pageCount ≥ pageLimit`, and the current path
was removed (claim C3 shows completion removes it; the break branch removes
it again).  (c) A successful, non-excepting iteration that does not break
has `pageCount < pageLimit`, so reaching the limit on a success always
terminates.  (d) A failed fetch never breaks the loop — the limit check is
skipped, so the crawl keeps fetching after a failed iteration even when
`pageCount ≥ pageLimit` (the counterexample). -/
theorem claim4_page_limit_amended :
    (∀ cfg oracle fuel i st q rest st',
      st.inProgress = q :: rest →
      crawl_iter cfg (oracle i) st q = .ok (st', true) →
      crawl_loop cfg oracle (fuel + 1) i st = .ok st') ∧
    (∀ cfg inp st q st',
      crawl_iter cfg inp st q = .ok (st', true) → cfg.limit ≤ st'.pageCount) ∧
    (∀ cfg status rr fu doc st np st',
      crawl_iter_core cfg (.success status rr fu doc) st np = .ok (st', false) →
      st'.errorLog = st.errorLog → st'.pageCount < cfg.limit) ∧
    (∀ cfg t m st np st' brk,
      crawl_iter_core cfg (.failure t m) st np = .ok (st', brk) → brk = false) := by
  refine ⟨?_, ?_, ?_, ?_⟩
  · intro cfg oracle fuel i st q rest st' hip hok
    simp only [crawl_loop]
    rw [hip]
    dsimp only
    rw [hok]
    rfl
  · intro cfg inp st q st' hok
    simp only [crawl_iter] at hok
    exact crawl_iter_core_break_limit cfg inp.outcome _ _ st' hok
  · intro cfg status rr fu doc st np st' hok hlog
    simp only [crawl_iter_core] at hok
    split at hok
    · cases hok
      simp [fail_update, log_crawler_error] at hlog
    · next x stR np' heq =>
      by_cases hfm : cfg.findMoreLinks = true
      · rw [if_pos hfm] at hok
        split at hok
        · cases hok
        · next x2 st2 hal =>
          split at hok
          · cases hok
          · next hlim =>
              cases hok
              have := of_decide_eq_false (Bool.of_not_eq_true hlim)
              simpa using Nat.lt_of_not_le this
      · rw [if_neg hfm] at hok
        dsimp only at hok
        split at hok
        · cases hok
        · next hlim =>
            cases hok
            have := of_decide_eq_false (Bool.of_not_eq_true hlim)
            simpa using Nat.lt_of_not_le this
  · intro cfg t m st np st' brk hok
    simp only [crawl_iter_core] at hok
    cases hok
    rfl

/-- One-path frontier for the C4 witness. -/
def c4stB : CrawlState := { st0 with inProgress := ["/b"] }

/-- Oracle for the C4 witness: one successful fetch. -/
def c4oracleB : Nat → IterInput :=
  fun _ => { pick := "/b", outcome := .success 200 1 "" doc0 }

/-- State after the breaking C4 witness iteration. -/
def c4brkAfter : CrawlState :=
  { inProgress := [], finished := ["/b"], errored := [], depthSamples := [1],
    errorLog := [], console := ["200", "Completed download of /b"],
    savedPages := ["b.html"], savedImages := [],
    fetchLog := ["https://example.com/b"], pageCount := 1 }

/-- A discovery-free job with the default page limit, for the C4 witness. -/
def c4cfg2 : Config := { cfg0 with findMoreLinks := false }

/-- One-path frontier for the C4 witness's non-breaking iterations. -/
def c4st1 : CrawlState := { st0 with inProgress := ["/a"] }

/-- State after the non-breaking successful C4 witness iteration. -/
def c4after2 : CrawlState :=
  { inProgress := [], finished := ["/a"], errored := [], depthSamples := [],
    errorLog := [], console := ["200", "Completed download of /a"],
    savedPages := ["a.html"], savedImages := [],
    fetchLog := ["https://example.com/a"], pageCount := 1 }

/-- State after the failing C4 witness iteration. -/
def c4afterFail : CrawlState :=
  { inProgress := [], finished := [], errored := ["/a"], depthSamples := [],
    errorLog := [{ path := "/a", errorType := "E", errorMessage := "m", note := none }],
    console := ["\nE: m: https://example.com/a\n"], savedPages := [], savedImages := [],
    fetchLog := ["https://example.com/a"], pageCount := 1 }

/-- Witness for the amended C4 at concrete iterations. -/
theorem claim4_page_limit_amended_witness :
    crawl_loop c4cfg c4oracleB 5 0 c4stB = .ok c4brkAfter ∧
    c4cfg.limit ≤ c4brkAfter.pageCount ∧
    c4after2.pageCount < c4cfg2.limit ∧
    false = false :=
  ⟨claim4_page_limit_amended.1 c4cfg c4oracleB 4 0 c4stB "/b" [] c4brkAfter rfl rfl,
   claim4_page_limit_amended.2.1 c4cfg (c4oracleB 0) c4stB "/b" c4brkAfter rfl,
   claim4_page_limit_amended.2.2.1 c4cfg2 200 1 "" doc0 c4st1 "/a" c4after2 rfl rfl,
   claim4_page_limit_amended.2.2.2 cfg0 "E" "m" c4st1 "/a" c4afterFail false rfl⟩

/-!
Claim C6: same-domain comparison.
-/

/-- Claim C6, as stated, is false on the code: `lstrip('www.')` is a
character-set strip (removing every leading `w` or `.`), not a prefix
strip.  For the job domain `example.com`, the candidate `wwwwexample.com`
compares equal under the code but not under the claimed prefix-strip. -/
theorem claim6_sameDomain_counterexample :
    same_domains cfg0 (some "wwwwexample.com") = true ∧
    same_domains_claimed cfg0 (some "wwwwexample.com") = false := by
  exact ⟨by decide, by decide⟩

/-- Claim C6 (amended): `same_domains` returns true iff the candidate is
unset or falsy, or the two domains agree after removing all leading
characters from the set left-brace w, period right-brace and all trailing
slashes from both sides (Python `lstrip`/`rstrip` character-set semantics,
not a prefix strip).  The claim's concrete examples hold:
`www.example.com` matches `example.com`, and `other.com` does not. -/
theorem claim6_sameDomain_amended :
    (∀ cfg : Config, same_domains cfg none = true) ∧
    (∀ (cfg : Config) (d : String),
      same_domains cfg (some d) = true ↔ (d = "" ∨ stripDom cfg.domain = stripDom d)) ∧
    (∀ d : String, stripDom d = pyRstrip slashChars (pyLstrip wwwChars d)) ∧
    same_domains cfg0 (some "www.example.com") = true ∧
    same_domains cfg0 (some "other.com") = false := by
  refine ⟨fun cfg => rfl, ?_, fun d => rfl, by decide, by decide⟩
  intro cfg d
  by_cases hd : d = ""
  · subst hd
    simp [same_domains, pyTruthy]
  · simp [same_domains, pyTruthy, pyStr, hd]

/-!
Claim C7: href resolution cases.
-/

lemma pyStartswith_iff (s pre : String) :
    pyStartswith s pre = true ↔ pre.toList <+: s.toList := by
  simp [pyStartswith, List.isPrefixOf_iff_prefix]

lemma pyStartswith_mono (s p q : String) (hpq : p.toList <+: q.toList)
    (h : pyStartswith s q = true) : pyStartswith s p = true := by
  rw [pyStartswith_iff] at h ⊢
  exact hpq.trans h

lemma dotdot_not_dslash (href : String) (h : pyStartswith href "/../" = true) :
    pyStartswith href "//" = false := by
  rw [pyStartswith_iff] at h
  obtain ⟨t, ht⟩ := h
  cases hc : pyStartswith href "//"
  · rfl
  · rw [pyStartswith_iff] at hc
    obtain ⟨t2, ht2⟩ := hc
    rw [← ht] at ht2
    simp at ht2

/-- Claim C7: `url_from_href` behaves by cases on the href.  (a) An href
beginning `//` is resolved by the protocol-relative regex, its failure
raising the malformed-link (`Scary path`) error; (b) an href beginning
`/../` yields no domain and the href minus its first 3 characters; (c) any
other href beginning `/` yields no domain and the unchanged href; (d) every
other href is resolved through `url_parts`, (e) which, on any input the
absolute-form regex does not match, yields no scheme, no domain, and the
whole input as the path, `/`-prefixed when needed. -/
theorem claim7_urlFromHref_cases :
    (∀ href d p, pyStartswith href "//" = true →
      protoRelSearch href.toList = some (d, p) →
      url_from_href href = .ok (some d, p)) ∧
    (∀ href, pyStartswith href "//" = true →
      protoRelSearch href.toList = none →
      url_from_href href = .error ("Scary path: " ++ href)) ∧
    (∀ href, pyStartswith href "/../" = true →
      url_from_href href = .ok (none, href.drop 3)) ∧
    (∀ href, pyStartswith href "/" = true → pyStartswith href "//" = false →
      pyStartswith href "/../" = false →
      url_from_href href = .ok (none, href)) ∧
    (∀ href, pyStartswith href "/" = false →
      url_from_href href = .ok ((url_parts href).2.1, (url_parts href).2.2)) ∧
    (∀ url, searchFrom url.toList = none →
      url_parts url = (none, none, if pyStartswith url "/" then url else "/" ++ url)) := by
  refine ⟨?_, ?_, ?_, ?_, ?_, ?_⟩
  · intro href d p h1 hps
    simp only [String.toList] at hps
    simp [url_from_href, h1, hps]
  · intro href h1 hps
    simp only [String.toList] at hps
    simp [url_from_href, h1, hps]
  · intro href h1
    have h2 : pyStartswith href "//" = false := dotdot_not_dslash href h1
    simp [url_from_href, h1, h2]
  · intro href h1 h2 h3
    simp [url_from_href, h1, h2, h3]
  · intro href h1
    have h2 : pyStartswith href "//" = false := by
      cases hc : pyStartswith href "//"
      · rfl
      · exact absurd (pyStartswith_mono href "/" "//" ⟨['/'], rfl⟩ hc) (by simp [h1])
    have h3 : pyStartswith href "/../" = false := by
      cases hc : pyStartswith href "/../"
      · rfl
      · exact absurd (pyStartswith_mono href "/" "/../" ⟨['.', '.', '/'], rfl⟩ hc)
          (by simp [h1])
    simp [url_from_href, h1, h2, h3]
  · intro url h
    simp only [String.toList] at h
    simp [url_parts, h]

/-- Witness for C7: each branch at a concrete href. -/
theorem claim7_urlFromHref_cases_witness :
    url_from_href "//abc/x" = .ok (some "abc", "/x") ∧
    url_from_href "//ab" = .error "Scary path: //ab" ∧
    url_from_href "/../x" = .ok (none, "/../x".drop 3) ∧
    url_from_href "/plain" = .ok (none, "/plain") ∧
    url_from_href "page.html" =
      .ok ((url_parts "page.html").2.1, (url_parts "page.html").2.2) ∧
    url_parts "q.html" =
      (none, none, if pyStartswith "q.html" "/" then "q.html" else "/" ++ "q.html") :=
  ⟨claim7_urlFromHref_cases.1 "//abc/x" "abc" "/x" (by decide) (by decide),
   claim7_urlFromHref_cases.2.1 "//ab" (by decide) (by decide),
   claim7_urlFromHref_cases.2.2.1 "/../x" (by decide),
   claim7_urlFromHref_cases.2.2.2.1 "/plain" (by decide) (by decide) (by decide),
   claim7_urlFromHref_cases.2.2.2.2.1 "page.html" (by decide),
   claim7_urlFromHref_cases.2.2.2.2.2 "q.html" (by decide)⟩

/-!
Claim C10: host-only absolute urls.  The `url_parts` regex requires a
`/`-initiated path after the host, so `https://example.com` (no slash after
the host) never matches: the only slashes are the two of `://`, and the
text before them contains no dot-split host.
-/

lemma hostPath_noslash (l : List Char) (h : l.all (fun c => c != '/') = true) :
    hostPath l = none := by
  simp only [hostPath]
  have hd : l.dropWhile (fun c => c != '/') = [] := by
    rw [List.dropWhile_eq_nil_iff]
    exact fun x hx => (List.all_eq_true.mp h) x hx
  rw [hd]

lemma all_noslash_drop (l : List Char) (n : Nat)
    (h : l.all (fun c => c != '/') = true) :
    (l.drop n).all (fun c => c != '/') = true := by
  rw [List.all_eq_true] at h ⊢
  exact fun x hx => h x (List.drop_subset n l hx)

lemma tryAt_noslash (l : List Char) (h : l.all (fun c => c != '/') = true) :
    tryAt l = none := by
  have hp := hostPath_noslash l h
  have h8 := hostPath_noslash _ (all_noslash_drop l 8 h)
  have h7 := hostPath_noslash _ (all_noslash_drop l 7 h)
  unfold tryAt schemeAt
  by_cases h1 : (((l.take 8).map Char.toLower) == "https://".toList) = true
  · rw [if_pos h1]
    dsimp only
    rw [h8]
    simp [hp]
  · rw [if_neg h1]
    by_cases h2 : (((l.take 7).map Char.toLower) == "http://".toList) = true
    · rw [if_pos h2]
      dsimp only
      rw [h7]
      simp [hp]
    · rw [if_neg h2]
      simp [hp]

lemma searchFrom_noslash (l : List Char) (h : l.all (fun c => c != '/') = true) :
    searchFrom l = none := by
  induction l with
  | nil => rfl
  | cons c tl ih =>
    have h2 : tl.all (fun c => c != '/') = true := by
      rw [List.all_eq_true] at h ⊢
      exact fun x hx => h x (List.mem_cons_of_mem _ hx)
    unfold searchFrom
    rw [tryAt_noslash _ h]
    exact ih h2

lemma searchFrom_https_hostonly (hl : List Char)
    (h : hl.all (fun c => c != '/') = true) :
    searchFrom ('h' :: 't' :: 't' :: 'p' :: 's' :: ':' :: '/' :: '/' :: hl) = none := by
  have h0 : tryAt ('h' :: 't' :: 't' :: 'p' :: 's' :: ':' :: '/' :: '/' :: hl) = none := by
    unfold tryAt
    rw [show schemeAt ('h' :: 't' :: 't' :: 'p' :: 's' :: ':' :: '/' :: '/' :: hl) =
      some ("https", hl) from rfl]
    dsimp only
    rw [hostPath_noslash hl h]
    rfl
  have h1 : tryAt ('t' :: 't' :: 'p' :: 's' :: ':' :: '/' :: '/' :: hl) = none := rfl
  have h2 : tryAt ('t' :: 'p' :: 's' :: ':' :: '/' :: '/' :: hl) = none := rfl
  have h3 : tryAt ('p' :: 's' :: ':' :: '/' :: '/' :: hl) = none := rfl
  have h4 : tryAt ('s' :: ':' :: '/' :: '/' :: hl) = none := rfl
  have h5 : tryAt (':' :: '/' :: '/' :: hl) = none := rfl
  have h6 : tryAt ('/' :: '/' :: hl) = none := rfl
  have h7 : tryAt ('/' :: hl) = none := rfl
  simp only [searchFrom, h0, h1, h2, h3, h4, h5, h6, h7]
  exact searchFrom_noslash hl h

lemma searchFrom_http_hostonly (hl : List Char)
    (h : hl.all (fun c => c != '/') = true) :
    searchFrom ('h' :: 't' :: 't' :: 'p' :: ':' :: '/' :: '/' :: hl) = none := by
  have h0 : tryAt ('h' :: 't' :: 't' :: 'p' :: ':' :: '/' :: '/' :: hl) = none := by
    unfold tryAt
    rw [show schemeAt ('h' :: 't' :: 't' :: 'p' :: ':' :: '/' :: '/' :: hl) =
      some ("http", hl) from rfl]
    dsimp only
    rw [hostPath_noslash hl h]
    rfl
  have h1 : tryAt ('t' :: 't' :: 'p' :: ':' :: '/' :: '/' :: hl) = none := rfl
  have h2 : tryAt ('t' :: 'p' :: ':' :: '/' :: '/' :: hl) = none := rfl
  have h3 : tryAt ('p' :: ':' :: '/' :: '/' :: hl) = none := rfl
  have h4 : tryAt (':' :: '/' :: '/' :: hl) = none := rfl
  have h5 : tryAt ('/' :: '/' :: hl) = none := rfl
  have h6 : tryAt ('/' :: hl) = none := rfl
  simp only [searchFrom, h0, h1, h2, h3, h4, h5, h6]
  exact searchFrom_noslash hl h

/-- Claim C10: for a well-formed absolute url whose host is followed by no
`/`-initiated path (`https://h` or `http://h` with `h` slash-free), the
regex finds no match, so `url_parts` yields no scheme and no domain and
the whole input `/`-prefixed as the path — and constructing a crawl job
from such a start url fails with `Invalid starting url`. -/
theorem claim10_hostOnly_url (h : String)
    (hs : h.toList.all (fun c => c != '/') = true) :
    url_parts ("https://" ++ h) = (none, none, "/" ++ ("https://" ++ h)) ∧
    url_parts ("http://" ++ h) = (none, none, "/" ++ ("http://" ++ h)) ∧
    mk_crawler true ("https://" ++ h) [] [] true 1000 = .error "Invalid starting url" ∧
    mk_crawler true ("http://" ++ h) [] [] true 1000 = .error "Invalid starting url" := by
  have hsf1 : searchFrom ('h' :: 't' :: 't' :: 'p' :: 's' :: ':' :: '/' :: '/' :: h.data) =
      none := searchFrom_https_hostonly h.toList hs
  have hsf2 : searchFrom ('h' :: 't' :: 't' :: 'p' :: ':' :: '/' :: '/' :: h.data) =
      none := searchFrom_http_hostonly h.toList hs
  have hps1 : pyStartswith ("https://" ++ h) "/" = false := rfl
  have hps2 : pyStartswith ("http://" ++ h) "/" = false := rfl
  have hu1 : url_parts ("https://" ++ h) = (none, none, "/" ++ ("https://" ++ h)) := by
    simp [url_parts, hsf1, hps1]
  have hu2 : url_parts ("http://" ++ h) = (none, none, "/" ++ ("http://" ++ h)) := by
    simp [url_parts, hsf2, hps2]
  refine ⟨hu1, hu2, ?_, ?_⟩
  · simp [mk_crawler, hu1, pyTruthy]
  · simp [mk_crawler, hu2, pyTruthy]

/-- Witness for C10 at the claim's example url. -/
theorem claim10_hostOnly_url_witness :
    url_parts ("https://" ++ "example.com") =
      (none, none, "/" ++ ("https://" ++ "example.com")) ∧
    mk_crawler true ("https://" ++ "example.com") [] [] true 1000 =
      .error "Invalid starting url" :=
  ⟨(claim10_hostOnly_url "example.com" (by decide)).1,
   (claim10_hostOnly_url "example.com" (by decide)).2.2.1⟩

/-!
Claim C5: link discovery and filtering.
-/

/-- An anchor that defines no href attribute. -/
def c5noHref : Anchor := { href := none, text := "x", serialized := "<a>x</a>" }

/-- A job whose allow list is `["one"]`. -/
def c5cfgA : Config := { cfg0 with allow := ["one"] }

/-- A document with only the href-less anchor. -/
def c5docA : Document := { doc0 with anchors := [c5noHref] }

/-- Claim C5, as stated, is false on the code: in allow mode the attribute
filter is the Python test `substring in str(href)`, and an anchor without an
href reaches the filter as `None`, rendered `"None"`.  With allow list
`["one"]` (and `"one"` a substring of `"None"`), an anchor with no href at
all is enumerated as a candidate, while the claim's characterisation —
anchors whose href contains an allow substring — excludes it. -/
theorem claim5_link_discovery_counterexample :
    page_links c5cfgA c5docA = [c5noHref] ∧
    c5noHref.href = none ∧
    page_links_claimed c5cfgA c5docA = [] := by
  exact ⟨by decide, rfl, by decide⟩

/-- Claim C5 (amended): candidate enumeration follows the Python rendering
of the href — in allow mode the candidates are exactly the anchors whose
href, rendered by `str` (absent hrefs render `"None"`), contains at least
one allow substring; with no allow list they are the anchors defining an
href and having nonempty text.  A candidate without a truthy href is
dropped right after the hidden-element check, so it never contributes a
path.  A resolved candidate is discarded iff its path is empty, longer
than 120 characters, fails the domain check, is already finished or
errored, contains an avoid substring, or contains `http`; and the paths in
`in_progress` after link discovery are exactly the old ones plus the
contributions of the surviving candidates. -/
theorem claim5_link_discovery_amended :
    (∀ cfg doc a, cfg.allow ≠ [] →
      (a ∈ page_links cfg doc ↔
        a ∈ doc.anchors ∧ ∃ s ∈ cfg.allow, pyIn s (pyStr a.href) = true)) ∧
    (∀ cfg doc, cfg.allow = [] →
      page_links cfg doc = doc.anchors.filter (fun a => a.href.isSome && a.text != "")) ∧
    (∀ cfg st d lp, skip_link cfg st d lp = true ↔
      (lp = "" ∨ 120 < lp.length ∨ same_domains cfg d = false ∨
       lp ∈ st.finished ∨ lp ∈ st.errored ∨ (∃ s ∈ cfg.avoid, pyIn s lp = true) ∨
       pyIn "http" lp = true)) ∧
    (∀ cfg st doc st', add_links cfg st doc = .ok st' →
      ∀ p, p ∈ st'.inProgress ↔
        p ∈ st.inProgress ∨ ∃ a ∈ page_links cfg doc, added_path cfg st a = some p) := by
  refine ⟨?_, ?_, ?_, ?_⟩
  · intro cfg doc a hne
    have hie : cfg.allow.isEmpty = false := by
      cases hval : cfg.allow with
      | nil => exact absurd hval hne
      | cons x xs => rfl
    simp only [page_links, hie, Bool.false_eq_true, if_false, List.mem_flatten,
      List.mem_map, List.mem_filter]
    constructor
    · rintro ⟨l, ⟨s, hs, rfl⟩, hal⟩
      obtain ⟨hmem, hin⟩ := List.mem_filter.mp hal
      exact ⟨hmem, s, hs, hin⟩
    · rintro ⟨hmem, s, hs, hin⟩
      exact ⟨_, ⟨s, hs, rfl⟩, List.mem_filter.mpr ⟨hmem, hin⟩⟩
  · intro cfg doc hal
    simp [page_links, hal]
  · intro cfg st d lp
    rw [skip_link]
    simp only [Bool.or_eq_true, beq_iff_eq, decide_eq_true_eq, Bool.not_eq_true',
      sismember_iff, avoid_link, messy_path, List.any_eq_true, or_assoc]
  · intro cfg st doc st' hok p
    unfold add_links at hok
    exact (add_links_go_mem cfg (page_links cfg doc) st st' hok).2.2.2 p

/-- The allow-mode job and single-recipe document of the C5 witness. -/
def c5cfg : Config := { cfg0 with allow := ["recipes/"] }

/-- The C5 witness anchor. -/
def c5anchor : Anchor :=
  { href := some "/recipes/pie", text := "Pie", serialized := "<a>Pie</a>" }

/-- The C5 witness document. -/
def c5doc : Document := { doc0 with anchors := [c5anchor] }

/-- Witness for the amended C5 at a concrete discovery run. -/
theorem claim5_link_discovery_amended_witness :
    (c5anchor ∈ page_links c5cfg c5doc ↔
      c5anchor ∈ c5doc.anchors ∧ ∃ s ∈ c5cfg.allow, pyIn s (pyStr c5anchor.href) = true) ∧
    page_links cfg0 c5doc =
      c5doc.anchors.filter (fun a => a.href.isSome && a.text != "") ∧
    ("/recipes/pie" ∈ ({ st0 with inProgress := ["/recipes/pie"] } : CrawlState).inProgress ↔
      "/recipes/pie" ∈ st0.inProgress ∨
        ∃ a ∈ page_links c5cfg c5doc, added_path c5cfg st0 a = some "/recipes/pie") :=
  ⟨claim5_link_discovery_amended.1 c5cfg c5doc c5anchor (by decide),
   claim5_link_discovery_amended.2.1 cfg0 c5doc rfl,
   claim5_link_discovery_amended.2.2.2 c5cfg st0 c5doc
     { st0 with inProgress := ["/recipes/pie"] } rfl "/recipes/pie"⟩

/-!
Claim C8: the paginated-search loop.
-/

/-- Claim C8 describes the intended paginated-search loop, and most of it
matches the code: (a) the cursor starts at 1; (b) the loop stops with a
printed diagnostic once the cursor exceeds 2500, fetching nothing; (c) it
skips the fetch and advances when the page's path is already finished;
(d) on fetch failure it logs the error, moves the path to `errored`
(visible in `fail_update`), and advances without retrying; (e) it stops on
the sentinel end-of-results marker.  But the claimed download-and-advance
step is broken in the code: (f) on every fresh, successful, non-sentinel
page (shown here with link discovery off), epicurious.py:57 passes the raw
response bytes to the overridden `download_page`, whose
`soup.select_one` (line 115) raises an uncaught `AttributeError`, so
nothing is downloaded or completed and the cursor does not advance; and
(g) the loop aborts with that exception, while (h) a stopping pass ends
the loop normally. -/
theorem claim8_paginated_search_bug :
    (∀ cfg oracle fuel st,
      epi_crawl_domain cfg oracle fuel st = epi_loop cfg oracle fuel 1 st) ∧
    (∀ cfg oracle pn st, pn > 2500 →
      epi_iter cfg oracle pn st = .stop { st with console := st.console ++
        ["Page limit reached before finding the \"Dont Cry\" page"] }) ∧
    (∀ cfg oracle pn st, pn ≤ 2500 →
      sismember st.finished ("/search?page=" ++ toString pn) = true →
      epi_iter cfg oracle pn st = .next (pn + 1) st) ∧
    (∀ cfg oracle pn st t m, pn ≤ 2500 →
      sismember st.finished ("/search?page=" ++ toString pn) = false →
      oracle pn = .failure t m →
      epi_iter cfg oracle pn st = .next (pn + 1)
        (fail_update
          { st with fetchLog := st.fetchLog ++
              [cfg.baseUrl ++ ("/search?page=" ++ toString pn)] }
          ("/search?page=" ++ toString pn)
          (cfg.baseUrl ++ ("/search?page=" ++ toString pn)) t m)) ∧
    (∀ cfg oracle pn st status rr finalUrl doc, pn ≤ 2500 →
      sismember st.finished ("/search?page=" ++ toString pn) = false →
      oracle pn = .success status rr finalUrl doc →
      (rr == 0) = false → doc.endMarker = true →
      epi_iter cfg oracle pn st = .stop
        { st with
          fetchLog := st.fetchLog ++ [cfg.baseUrl ++ ("/search?page=" ++ toString pn)],
          console := st.console ++ [toString status, "Reached the final search page"] }) ∧
    (∀ cfg oracle pn st status rr finalUrl doc, pn ≤ 2500 →
      sismember st.finished ("/search?page=" ++ toString pn) = false →
      oracle pn = .success status rr finalUrl doc →
      (rr == 0) = false → doc.endMarker = false → cfg.findMoreLinks = false →
      epi_iter cfg oracle pn st = .fatal
        "AttributeError: 'bytes' object has no attribute 'select_one'"
        { st with
          fetchLog := st.fetchLog ++ [cfg.baseUrl ++ ("/search?page=" ++ toString pn)],
          console := st.console ++ [toString status] }) ∧
    (∀ cfg oracle fuel pn st e s, epi_iter cfg oracle pn st = .fatal e s →
      epi_loop cfg oracle (fuel + 1) pn st = .error (e, s)) ∧
    (∀ cfg oracle fuel pn st s, epi_iter cfg oracle pn st = .stop s →
      epi_loop cfg oracle (fuel + 1) pn st = .ok s) := by
  refine ⟨fun cfg oracle fuel st => rfl, ?_, ?_, ?_, ?_, ?_, ?_, ?_⟩
  · intro cfg oracle pn st hlim
    simp only [epi_iter]
    rw [if_pos hlim]
  · intro cfg oracle pn st hlim hfin
    simp only [epi_iter]
    rw [if_neg (by omega), if_pos hfin]
  · intro cfg oracle pn st t m hlim hfin horacle
    simp only [epi_iter]
    rw [if_neg (by omega), if_neg (by simp [hfin]), horacle]
  · intro cfg oracle pn st status rr finalUrl doc hlim hfin horacle hrr hem
    simp only [epi_iter]
    rw [if_neg (by omega), if_neg (by simp [hfin]), horacle]
    dsimp only
    rw [if_neg (by simp [hrr])]
    dsimp only
    rw [if_pos hem]
    simp
  · intro cfg oracle pn st status rr finalUrl doc hlim hfin horacle hrr hem hfm
    simp only [epi_iter]
    rw [if_neg (by omega), if_neg (by simp [hfin]), horacle]
    dsimp only
    rw [if_neg (by simp [hrr])]
    dsimp only
    rw [if_neg (by simp [hem]), if_neg (by simp [hfm])]
    rfl
  · intro cfg oracle fuel pn st e s hfatal
    simp only [epi_loop]
    rw [hfatal]
  · intro cfg oracle fuel pn st s hstop
    simp only [epi_loop]
    rw [hstop]

/-- Oracle of the C8 witness: page 5 fails, page 6 shows the sentinel, all
other pages succeed plainly. -/
def c8oracle : Nat → FetchOutcome := fun pn =>
  if pn = 5 then .failure "HTTPError" "x"
  else if pn = 6 then .success 200 1 "" { doc0 with endMarker := true }
  else .success 200 1 "" doc0

/-- A state whose `finished` set already holds search page 3. -/
def c8stFin : CrawlState := { st0 with finished := ["/search?page=3"] }

/-- The C8 witness job with link discovery off, isolating the
download-page crash. -/
def c8cfg : Config := { cfg0 with findMoreLinks := false }

/-- Witness for C8 at concrete cursor positions, including the
`AttributeError` crash on a fresh successful page. -/
theorem claim8_paginated_search_bug_witness :
    epi_crawl_domain cfg0 c8oracle 7 st0 = epi_loop cfg0 c8oracle 7 1 st0 ∧
    epi_iter cfg0 c8oracle 2501 st0 = .stop { st0 with console := st0.console ++
      ["Page limit reached before finding the \"Dont Cry\" page"] } ∧
    epi_iter cfg0 c8oracle 3 c8stFin = .next 4 c8stFin ∧
    epi_iter cfg0 c8oracle 5 st0 = .next 6
      (fail_update
        { st0 with fetchLog := st0.fetchLog ++
            [cfg0.baseUrl ++ ("/search?page=" ++ toString 5)] }
        ("/search?page=" ++ toString 5)
        (cfg0.baseUrl ++ ("/search?page=" ++ toString 5)) "HTTPError" "x") ∧
    epi_iter cfg0 c8oracle 6 st0 = .stop
      { st0 with
        fetchLog := st0.fetchLog ++ [cfg0.baseUrl ++ ("/search?page=" ++ toString 6)],
        console := st0.console ++ [toString 200, "Reached the final search page"] } ∧
    epi_iter c8cfg c8oracle 7 st0 = .fatal
      "AttributeError: 'bytes' object has no attribute 'select_one'"
      { st0 with
        fetchLog := st0.fetchLog ++ [c8cfg.baseUrl ++ ("/search?page=" ++ toString 7)],
        console := st0.console ++ [toString 200] } ∧
    epi_loop c8cfg c8oracle 9 7 st0 = .error
      ("AttributeError: 'bytes' object has no attribute 'select_one'",
       { st0 with
         fetchLog := st0.fetchLog ++ [c8cfg.baseUrl ++ ("/search?page=" ++ toString 7)],
         console := st0.console ++ [toString 200] }) ∧
    epi_loop cfg0 c8oracle 9 2501 st0 = .ok { st0 with console := st0.console ++
      ["Page limit reached before finding the \"Dont Cry\" page"] } :=
  ⟨claim8_paginated_search_bug.1 cfg0 c8oracle 7 st0,
   claim8_paginated_search_bug.2.1 cfg0 c8oracle 2501 st0 (by decide),
   claim8_paginated_search_bug.2.2.1 cfg0 c8oracle 3 c8stFin (by decide) (by decide),
   claim8_paginated_search_bug.2.2.2.1 cfg0 c8oracle 5 st0 "HTTPError" "x"
     (by decide) (by decide) rfl,
   claim8_paginated_search_bug.2.2.2.2.1 cfg0 c8oracle 6 st0 200 1 ""
     { doc0 with endMarker := true } (by decide) (by decide) rfl (by decide) rfl,
   claim8_paginated_search_bug.2.2.2.2.2.1 c8cfg c8oracle 7 st0 200 1 "" doc0
     (by decide) (by decide) rfl (by decide) rfl rfl,
   claim8_paginated_search_bug.2.2.2.2.2.2.1 c8cfg c8oracle 8 7 st0 _ _
     (claim8_paginated_search_bug.2.2.2.2.2.1 c8cfg c8oracle 7 st0 200 1 "" doc0
       (by decide) (by decide) rfl (by decide) rfl rfl),
   claim8_paginated_search_bug.2.2.2.2.2.2.2 cfg0 c8oracle 8 2501 st0 _
     (claim8_paginated_search_bug.2.1 cfg0 c8oracle 2501 st0 (by decide))⟩

/-!
Claim C9: error logging of image-fetch failures.
-/

/-- A recipe page whose image fetch will fail: the recipe image carries a
srcset, the file is not on disk, and the transport raises. -/
def c9doc : Document :=
  { anchors := [], endMarker := false, mainContentPresent := true,
    recipeImgSrcset := some (some "https://assets.epicurious.com/img/pie.jpg"),
    imgFileExists := false, imgFetch := .error ("MaxRetryError", "timeout") }

/-- Claim C9 is right about the intended behaviour but the code is wrong:
`EpicuriousCrawler.download_image` handles an image-fetch failure with
`self.log_crawler_error(next_path, e, note='image')`, yet no name
`next_path` is bound there (epicurious.py:151; the parameter is `path`),
so the handler raises `NameError` before logging anything: no record with
`note='image'` is written, the error log stays empty, and the exception
propagates out of `download_page`, aborting the page download (and, since
`download_page` is called outside the crawl loop's `try`, the loop). -/
theorem claim9_image_error_logging_bug :
    epi_download_image cfg0 st0 c9doc "recipe_-_pie" =
      .error ("NameError: name 'next_path' is not defined", st0) ∧
    epi_download_page cfg0 st0 c9doc "/recipe/pie" =
      .error ("NameError: name 'next_path' is not defined", st0) ∧
    st0.errorLog = [] :=
  ⟨rfl, rfl, rfl⟩

end Crawler
